import Mathlib

/-!
Shallow embedding of the load-testing harness in src/oracle_test_lib.py.

Python floats are modelled as exact rationals, Python ints as ℤ (or ℕ where
the source value is a length), and fallible Python operations (division,
statistics functions, list indexing) as Except-valued functions that return
the error exactly where CPython would raise.  Database and thread behaviour
is abstracted into explicit environment records: a worker environment says
whether the connect() call of that worker succeeds and which MetricRecord
each invocation of the operation callback returns, and the shared stop flag
becomes a predicate giving the value each worker observes at each
iteration-boundary check.
-/

namespace OracleLib

/-- Errors a modelled Python operation can raise. -/
inductive PyErr where
  | zeroDivision
  | statisticsError (msg : String)
  | valueError (msg : String)
  | indexError
  deriving DecidableEq, Repr

/-- Python floor division `a // b` on ints: ZeroDivisionError when `b = 0`,
otherwise floor division (rounding toward negative infinity). -/
def pyFloorDiv (a b : ℤ) : Except PyErr ℤ :=
  if b = 0 then .error .zeroDivision else .ok (Int.fdiv a b)

/-- Python true division `a / b` on floats: ZeroDivisionError when `b = 0`. -/
def pyDiv (a b : ℚ) : Except PyErr ℚ :=
  if b = 0 then .error .zeroDivision else .ok (a / b)

/-- Python `statistics.mean`: raises StatisticsError on an empty list. -/
def pyMean (l : List ℚ) : Except PyErr ℚ :=
  if l.isEmpty then .error (.statisticsError "mean requires at least one data point")
  else .ok (l.sum / l.length)

/-- Python `min` over a nonempty list; ValueError on an empty one. -/
def pyMin (l : List ℚ) : Except PyErr ℚ :=
  match l.min? with
  | some v => .ok v
  | none => .error (.valueError "min() arg is an empty sequence")

/-- Python `max` over a nonempty list; ValueError on an empty one. -/
def pyMax (l : List ℚ) : Except PyErr ℚ :=
  match l.max? with
  | some v => .ok v
  | none => .error (.valueError "max() arg is an empty sequence")

/-- Python `sorted` on floats: ascending order.  Since ≤ on ℚ is a total
antisymmetric order, every ascending sort of the same multiset is the same
list, so insertion sort coincides with the CPython sort. -/
def pySorted (l : List ℚ) : List ℚ :=
  List.insertionSort (· ≤ ·) l

/-- Python `statistics.median`: sort ascending, take the middle element
(odd length) or the average of the two middle elements (even length);
StatisticsError on an empty list. -/
def pyMedian (l : List ℚ) : Except PyErr ℚ :=
  let s := pySorted l
  let n := s.length
  if n = 0 then .error (.statisticsError "no median for empty data")
  else if n % 2 = 1 then .ok (s.getD (n / 2) 0)
  else .ok ((s.getD (n / 2 - 1) 0 + s.getD (n / 2) 0) / 2)

/-- The clamped rescaled index of one cut point of Python
`statistics.quantiles(data, n=n)` with the default exclusive method:
`j = i*m // n` for `m = len + 1`, clamped to `1 .. len-1`. -/
def quantJ (s : List ℚ) (n i : ℕ) : ℕ :=
  if i * (s.length + 1) / n < 1 then 1
  else if i * (s.length + 1) / n > s.length - 1 then s.length - 1
  else i * (s.length + 1) / n

/-- The exact integer `delta = i*m - j*n` of that cut point, computed AFTER
the clamp (as in CPython statistics.py); when the clamp moved `j`, delta
falls outside `[0, n)`. -/
def quantDelta (s : List ℚ) (n i : ℕ) : ℤ :=
  (i * (s.length + 1) : ℤ) - (quantJ s n i * n : ℤ)

/-- One cut point of Python `statistics.quantiles(data, n=n)` (exclusive
method) for sorted data `s` of length at least 2:
`(s[j-1]*(n-delta) + s[j]*delta) / n`.  When the clamp moved `j`, the
weights leave `[0, n]` and the point extrapolates beyond the data range. -/
def quantileCutPoint (s : List ℚ) (n i : ℕ) : ℚ :=
  (s.getD (quantJ s n i - 1) 0 * ((n : ℚ) - (quantDelta s n i : ℚ))
    + s.getD (quantJ s n i) 0 * (quantDelta s n i : ℚ)) / (n : ℚ)

/-- Python `statistics.quantiles(data, n=n)` (method exclusive, the default
used at src/oracle_test_lib.py lines 194-195): raises StatisticsError when
fewer than two data points, otherwise returns the `n-1` cut points. -/
def pyQuantiles (data : List ℚ) (n : ℕ) : Except PyErr (List ℚ) :=
  if n < 1 then .error (.statisticsError "n must be at least 1")
  else
    let s := pySorted data
    if s.length < 2 then .error (.statisticsError "must have at least two data points")
    else .ok ((List.range (n - 1)).map (fun k => quantileCutPoint s n (k + 1)))

/-- Python list indexing `l[i]` for a nonnegative index: IndexError when
out of range. -/
def pyIndex (l : List ℚ) (i : ℕ) : Except PyErr ℚ :=
  match l[i]? with
  | some v => .ok v
  | none => .error .indexError

/-- Python `str.lower()` restricted to the ASCII range, applied
character-by-character (all operation-type tags in the source are ASCII). -/
def pyLower (s : String) : String :=
  ⟨s.data.map Char.toLower⟩

/-- Python substring test `sub in s`. -/
def strContains (s sub : String) : Bool :=
  decide (sub.data <:+: s.data)

/-- MetricRecord: the TestMetrics dataclass (src/oracle_test_lib.py lines
127-150).  Timestamps and derived values are exact rationals. -/
structure TestMetrics where
  operation_type : String
  start_time : ℚ
  end_time : ℚ
  success : Bool
  error_message : Option String := none
  data_size_bytes : ℤ := 0
  connection_id : Option String := none
  deriving DecidableEq, Repr

/-- TestMetrics.duration_ms (line 139): `(end_time - start_time) * 1000`. -/
def TestMetrics.duration_ms (m : TestMetrics) : ℚ :=
  (m.end_time - m.start_time) * 1000

/-- TestMetrics.throughput_mbps (lines 144-150): returns 0 when
`duration_ms == 0`, otherwise divides MiB by seconds, guarded by
`seconds > 0`.  The divisions are modelled as fallible exactly where
CPython divides. -/
def TestMetrics.throughput_mbps (m : TestMetrics) : Except PyErr ℚ :=
  if m.duration_ms = 0 then .ok 0
  else do
    let mb ← pyDiv (m.data_size_bytes : ℚ) (1024 * 1024)
    let seconds ← pyDiv m.duration_ms 1000
    if seconds > 0 then pyDiv mb seconds else .ok 0

/-- C8: for every TestMetrics whose duration_ms equals 0, throughput_mbps is
exactly 0 (the zero-duration guard fires before any division, so no division
by zero occurs and the result is the exact rational 0, not a NaN or an
infinity), regardless of data_size_bytes. -/
theorem c8_zero_duration_throughput (m : TestMetrics) (h : m.duration_ms = 0) :
    m.throughput_mbps = .ok 0 := by
  simp [TestMetrics.throughput_mbps, h]

/-- A concrete metric with coinciding start and end timestamps. -/
def zeroDurationMetric : TestMetrics :=
  { operation_type := "large_write", start_time := 5, end_time := 5,
    success := true, data_size_bytes := 123456789 }

theorem c8_zero_duration_throughput_witness :
    zeroDurationMetric.duration_ms = 0 ∧ zeroDurationMetric.throughput_mbps = .ok 0 :=
  ⟨by norm_num [TestMetrics.duration_ms, zeroDurationMetric],
   c8_zero_duration_throughput _ (by norm_num [TestMetrics.duration_ms, zeroDurationMetric])⟩

/-- Lift a guarded optional block: Python `if cond: summary.update({...})`
adds the block only when `cond` holds; the block body may raise. -/
def liftOpt {β : Type} (b : Bool) (e : Except PyErr β) : Except PyErr (Option β) :=
  if b then e >>= fun v => .ok (some v) else .ok none

/-- List comprehension over a fallible element expression, in order. -/
def mapExcept {α β : Type} (f : α → Except PyErr β) : List α → Except PyErr (List β)
  | [] => .ok []
  | x :: xs => do
    let y ← f x
    let ys ← mapExcept f xs
    .ok (y :: ys)

/-- The successful records of a metric list (line 168). -/
def successfulOf (ms : List TestMetrics) : List TestMetrics :=
  ms.filter (fun m => m.success)

/-- Records whose lowered operation_type contains `tag` (lines 172-173). -/
def taggedOf (tag : String) (ms : List TestMetrics) : List TestMetrics :=
  ms.filter (fun m => strContains (pyLower m.operation_type) tag)

/-- The duration_ms values of the successful records (line 175). -/
def durationsOf (ms : List TestMetrics) : List ℚ :=
  (successfulOf ms).map TestMetrics.duration_ms

/-- The throughput_mbps values that are strictly positive (line 176 and
lines 208/225); evaluating the property is fallible in principle. -/
def posThroughputs (ms : List TestMetrics) : Except PyErr (List ℚ) :=
  (mapExcept TestMetrics.throughput_mbps ms) >>= fun ts =>
    .ok (ts.filter (fun t => decide (0 < t)))

/-- The duration-statistics block of the summary (lines 188-196). -/
structure DurStats where
  avg_duration_ms : ℚ
  min_duration_ms : ℚ
  max_duration_ms : ℚ
  median_duration_ms : ℚ
  p50_duration_ms : ℚ
  p95_duration_ms : ℚ
  p99_duration_ms : ℚ
  deriving DecidableEq, Repr

/-- The throughput-statistics block of the summary (lines 199-203). -/
structure ThroughputStats where
  avg_throughput_mbps : ℚ
  min_throughput_mbps : ℚ
  max_throughput_mbps : ℚ
  deriving DecidableEq, Repr

/-- The per-category (read or write) sub-summary block (lines 206-220 for
read, lines 223-237 for write; both blocks compute the same expressions on
their own record class). -/
structure OpClassStats where
  operations : ℕ
  data_mb : ℚ
  avg_duration_ms : ℚ
  min_duration_ms : ℚ
  max_duration_ms : ℚ
  p50_duration_ms : ℚ
  p95_duration_ms : ℚ
  p99_duration_ms : ℚ
  avg_throughput_mbps : Option ℚ
  deriving DecidableEq, Repr

/-- The full summary dictionary when metrics exist (lines 178-239); absent
optional blocks model keys the source never inserts. -/
structure SummaryStats where
  load_profile : String
  total_operations : ℕ
  successful_operations : ℕ
  failed_operations : ℕ
  success_rate : ℚ
  total_data_transferred_mb : ℚ
  durStats : Option DurStats
  thrStats : Option ThroughputStats
  readStats : Option OpClassStats
  writeStats : Option OpClassStats
  deriving DecidableEq, Repr

/-- Result of get_summary: either the early-return dictionary
`{"error": "No metrics collected"}` (line 166) or the statistics summary. -/
inductive SummaryResult where
  | noData (error : String)
  | stats (s : SummaryStats)
  deriving DecidableEq, Repr

/-- The p95/p99 selection expression of lines 194-195 (and its read/write
copies at lines 216-217 and 233-234): cut point `k` of
`statistics.quantiles(ds, n)` when `len(ds) > 1`, else `ds[0]`. -/
def quantSel (ds : List ℚ) (n k : ℕ) : Except PyErr ℚ :=
  if ds.length > 1 then pyQuantiles ds n >>= fun qs => pyIndex qs k
  else pyIndex ds 0

/-- The duration-statistics block body (lines 188-196): mean, min, max,
median, p50 (median again), p95 and p99. -/
def durBlock (durations : List ℚ) : Except PyErr DurStats := do
  let avg ← pyMean durations
  let mn ← pyMin durations
  let mx ← pyMax durations
  let med ← pyMedian durations
  let p95 ← quantSel durations 20 18
  let p99 ← quantSel durations 100 98
  .ok { avg_duration_ms := avg, min_duration_ms := mn, max_duration_ms := mx,
        median_duration_ms := med, p50_duration_ms := med,
        p95_duration_ms := p95, p99_duration_ms := p99 }

/-- The throughput-statistics block body (lines 199-203). -/
def thrBlock (ts : List ℚ) : Except PyErr ThroughputStats := do
  let avg ← pyMean ts
  let mn ← pyMin ts
  let mx ← pyMax ts
  .ok { avg_throughput_mbps := avg, min_throughput_mbps := mn, max_throughput_mbps := mx }

/-- One per-category sub-summary block (lines 206-220 / 223-237), applied to
the read class and to the write class of successful records. -/
def opClassBlock (classMetrics : List TestMetrics) : Except PyErr OpClassStats := do
  let ds := classMetrics.map TestMetrics.duration_ms
  let ts ← posThroughputs classMetrics
  let avg ← pyMean ds
  let mn ← pyMin ds
  let mx ← pyMax ds
  let med ← pyMedian ds
  let p95 ← quantSel ds 20 18
  let p99 ← quantSel ds 100 98
  let avgT ← liftOpt (!ts.isEmpty) (pyMean ts)
  .ok { operations := classMetrics.length,
        data_mb := (classMetrics.map (fun m => (m.data_size_bytes : ℚ))).sum / (1024 * 1024),
        avg_duration_ms := avg, min_duration_ms := mn, max_duration_ms := mx,
        p50_duration_ms := med, p95_duration_ms := p95, p99_duration_ms := p99,
        avg_throughput_mbps := avgT }

/-- TestResults.get_summary (lines 163-239).  The metric list is the
TestResults.metrics field, `name` the load_profile name.  Fallible
sub-computations appear in source evaluation order: the throughput
comprehension (line 176), the success_rate division (line 183), then the
duration, throughput, read and write blocks, each guarded by the emptiness
test of its input list. -/
def getSummary (name : String) (metrics : List TestMetrics) : Except PyErr SummaryResult :=
  if metrics.isEmpty then .ok (.noData "No metrics collected")
  else do
    let successful := successfulOf metrics
    let failed := metrics.filter (fun m => !m.success)
    let read_metrics := taggedOf "read" successful
    let write_metrics := taggedOf "write" successful
    let durations := durationsOf metrics
    let throughputs ← posThroughputs successful
    let rate ← pyDiv (successful.length : ℚ) (metrics.length : ℚ)
    let durs ← liftOpt (!durations.isEmpty) (durBlock durations)
    let thr ← liftOpt (!throughputs.isEmpty) (thrBlock throughputs)
    let reads ← liftOpt (!read_metrics.isEmpty) (opClassBlock read_metrics)
    let writes ← liftOpt (!write_metrics.isEmpty) (opClassBlock write_metrics)
    .ok (.stats
      { load_profile := name,
        total_operations := metrics.length,
        successful_operations := successful.length,
        failed_operations := failed.length,
        success_rate := rate * 100,
        total_data_transferred_mb :=
          (successful.map (fun m => (m.data_size_bytes : ℚ))).sum / (1024 * 1024),
        durStats := durs, thrStats := thr,
        readStats := reads, writeStats := writes })

/-- C7: get_summary on a TestResults with an empty metrics list returns the
distinguishable no-data dictionary and raises nothing; in particular the
success_rate division is never reached (the noData constructor is disjoint
from every stats value by construction). -/
theorem c7_empty_summary_no_data (name : String) :
    getSummary name [] = .ok (.noData "No metrics collected") := by
  simp [getSummary]

lemma ok_bind {α β : Type} (a : α) (f : α → Except PyErr β) :
    (Except.ok a >>= f) = f a := rfl

lemma throughput_ok (m : TestMetrics) : ∃ q, m.throughput_mbps = .ok q := by
  unfold TestMetrics.throughput_mbps
  by_cases h : m.duration_ms = 0
  · exact ⟨0, by simp [h]⟩
  · have h1 : pyDiv (m.data_size_bytes : ℚ) (1024 * 1024) =
        .ok ((m.data_size_bytes : ℚ) / (1024 * 1024)) := by norm_num [pyDiv]
    have h2 : pyDiv m.duration_ms 1000 = .ok (m.duration_ms / 1000) := by
      norm_num [pyDiv]
    rw [if_neg h, h1, ok_bind, h2, ok_bind]
    by_cases hp : m.duration_ms / 1000 > 0
    · rw [if_pos hp]
      unfold pyDiv
      rw [if_neg (ne_of_gt hp)]
      exact ⟨_, rfl⟩
    · rw [if_neg hp]
      exact ⟨0, rfl⟩

lemma mapExcept_ok {α β : Type} (f : α → Except PyErr β) (l : List α)
    (h : ∀ a ∈ l, ∃ b, f a = .ok b) : ∃ bs, mapExcept f l = .ok bs := by
  induction l with
  | nil => exact ⟨[], rfl⟩
  | cons x xs ih =>
    obtain ⟨b, hb⟩ := h x (by simp)
    obtain ⟨bs, hbs⟩ := ih (fun a ha => h a (by simp [ha]))
    exact ⟨b :: bs, by simp [mapExcept, hb, hbs, ok_bind]⟩

lemma posThroughputs_ok (ms : List TestMetrics) : ∃ ts, posThroughputs ms = .ok ts := by
  obtain ⟨bs, hbs⟩ := mapExcept_ok TestMetrics.throughput_mbps ms
    (fun m _ => throughput_ok m)
  exact ⟨_, by rw [posThroughputs, hbs, ok_bind]⟩

lemma pyMin_spec (l : List ℚ) (h : l ≠ []) :
    ∃ v, pyMin l = .ok v ∧ v ∈ l ∧ ∀ x ∈ l, v ≤ x := by
  haveI : Std.Antisymm (α := ℚ) (· ≤ ·) := ⟨fun h1 h2 => le_antisymm h1 h2⟩
  have hs : l.min?.isSome := by
    cases l with
    | nil => simp at h
    | cons x xs => simp [List.min?]
  obtain ⟨v, hv⟩ := Option.isSome_iff_exists.mp hs
  have := (List.min?_eq_some_iff (fun a => le_refl a) (fun a b => min_choice a b)
    (fun a b c => le_min_iff)).mp hv
  exact ⟨v, by simp [pyMin, hv], this.1, this.2⟩

lemma pyMax_spec (l : List ℚ) (h : l ≠ []) :
    ∃ v, pyMax l = .ok v ∧ v ∈ l ∧ ∀ x ∈ l, x ≤ v := by
  haveI : Std.Antisymm (α := ℚ) (· ≤ ·) := ⟨fun h1 h2 => le_antisymm h1 h2⟩
  have hs : l.max?.isSome := by
    cases l with
    | nil => simp at h
    | cons x xs => simp [List.max?]
  obtain ⟨v, hv⟩ := Option.isSome_iff_exists.mp hs
  have := (List.max?_eq_some_iff (fun a => le_refl a) (fun a b => max_choice a b)
    (fun a b c => max_le_iff)).mp hv
  exact ⟨v, by simp [pyMax, hv], this.1, this.2⟩

lemma pyMean_ok (l : List ℚ) (h : l ≠ []) : ∃ v, pyMean l = .ok v := by
  refine ⟨l.sum / l.length, ?_⟩
  simp [pyMean, h]

lemma pyMedian_ok (l : List ℚ) (h : l ≠ []) : ∃ v, pyMedian l = .ok v := by
  have hlen : (pySorted l).length ≠ 0 := by
    simp [pySorted, List.length_insertionSort, List.length_eq_zero, h]
  unfold pyMedian
  rcases Nat.even_or_odd (pySorted l).length with he | ho
  · have h2 : (pySorted l).length % 2 = 0 := Nat.even_iff.mp he
    rw [if_neg hlen, if_neg (by omega)]
    exact ⟨_, rfl⟩
  · have h2 : (pySorted l).length % 2 = 1 := Nat.odd_iff.mp ho
    rw [if_neg hlen, if_pos h2]
    exact ⟨_, rfl⟩

lemma liftOpt_true {β : Type} {b : Bool} {e : Except PyErr β} {v : β}
    (hb : b = true) (he : e = .ok v) : liftOpt b e = .ok (some v) := by
  simp [liftOpt, hb, he, ok_bind]

lemma liftOpt_false {β : Type} {b : Bool} {e : Except PyErr β}
    (hb : b = false) : liftOpt b e = .ok none := by
  simp [liftOpt, hb]

lemma length_filter_add_le {α : Type} (p q : α → Bool) (l : List α)
    (hpq : ∀ a ∈ l, ¬(p a = true ∧ q a = true)) :
    (l.filter p).length + (l.filter q).length ≤ l.length := by
  induction l with
  | nil => simp
  | cons x xs ih =>
    have ihx := ih (fun a ha => hpq a (List.mem_cons_of_mem _ ha))
    cases hp : p x with
    | true =>
      have hq : q x = false := by
        cases hq : q x with
        | false => rfl
        | true => exact absurd ⟨hp, hq⟩ (hpq x (List.mem_cons_self _ _))
      simp [List.filter_cons, hp, hq]
      omega
    | false =>
      cases hq : q x with
      | true =>
        simp [List.filter_cons, hp, hq]
        omega
      | false =>
        simp [List.filter_cons, hp, hq]
        omega

lemma getD_mem {l : List ℚ} {i : ℕ} (h : i < l.length) : l.getD i 0 ∈ l := by
  have he : l.getD i 0 = l[i] := by
    simp [List.getD, List.getElem?_eq_getElem h]
  rw [he]
  exact List.getElem_mem h

lemma interp_ge_left (a b lo : ℚ) (n : ℕ) (δ : ℤ) (hδ : 0 ≤ δ) (hn : 0 < n)
    (hab : a ≤ b) (hla : lo ≤ a) :
    lo ≤ (a * ((n : ℚ) - (δ : ℚ)) + b * (δ : ℚ)) / n := by
  have hn' : (0 : ℚ) < n := by exact_mod_cast hn
  have hδ' : (0 : ℚ) ≤ (δ : ℚ) := by exact_mod_cast hδ
  rw [le_div_iff₀ hn']
  calc lo * n ≤ a * n := mul_le_mul_of_nonneg_right hla (le_of_lt hn')
    _ = a * ((n : ℚ) - δ) + a * δ := by ring
    _ ≤ a * ((n : ℚ) - δ) + b * δ :=
        add_le_add_left (mul_le_mul_of_nonneg_right hab hδ') _

lemma interp_le_of_bounds (a b hi : ℚ) (n : ℕ) (δ : ℤ) (hδ0 : 0 ≤ δ)
    (hδn : δ ≤ (n : ℤ)) (hn : 0 < n) (hah : a ≤ hi) (hbh : b ≤ hi) :
    (a * ((n : ℚ) - (δ : ℚ)) + b * (δ : ℚ)) / n ≤ hi := by
  have hn' : (0 : ℚ) < n := by exact_mod_cast hn
  have w1 : (0 : ℚ) ≤ (n : ℚ) - δ := by
    have : (δ : ℚ) ≤ n := by exact_mod_cast hδn
    linarith
  have w2 : (0 : ℚ) ≤ (δ : ℚ) := by exact_mod_cast hδ0
  rw [div_le_iff₀ hn']
  calc a * ((n : ℚ) - δ) + b * δ ≤ hi * ((n : ℚ) - δ) + hi * δ :=
      add_le_add (mul_le_mul_of_nonneg_right hah w1) (mul_le_mul_of_nonneg_right hbh w2)
    _ = hi * n := by ring

/-- Adjacent elements of an ascending-sorted list are ordered. -/
lemma sorted_getD_adj {s : List ℚ} (hs : List.Sorted (· ≤ ·) s) {j : ℕ}
    (hj1 : 1 ≤ j) (hjlt : j < s.length) : s.getD (j - 1) 0 ≤ s.getD j 0 := by
  have hjm1 : j - 1 < s.length := by omega
  have e1 : s.getD (j - 1) 0 = s.get ⟨j - 1, hjm1⟩ := by
    simp [List.getD, List.getElem?_eq_getElem hjm1]
  have e2 : s.getD j 0 = s.get ⟨j, hjlt⟩ := by
    simp [List.getD, List.getElem?_eq_getElem hjlt]
  rw [e1, e2]
  exact List.Sorted.rel_get_of_lt hs (by rw [Fin.mk_lt_mk]; omega)

lemma quantJ_bounds (s : List ℚ) (n i : ℕ) (h2 : 2 ≤ s.length) :
    1 ≤ quantJ s n i ∧ quantJ s n i ≤ s.length - 1 := by
  unfold quantJ
  split_ifs <;> omega

/-- Without the lower clamp, the clamped index stays at most the unclamped
one. -/
lemma quantJ_le_div (s : List ℚ) (n i : ℕ) (hn : 0 < n)
    (hnm : n ≤ i * (s.length + 1)) :
    quantJ s n i ≤ i * (s.length + 1) / n := by
  have h1 : 1 ≤ i * (s.length + 1) / n := by
    rw [Nat.le_div_iff_mul_le hn]
    omega
  unfold quantJ
  split_ifs <;> omega

/-- When `n ≤ i*m`, delta is nonnegative (also under an upper clamp). -/
lemma quantDelta_nonneg (s : List ℚ) (n i : ℕ) (hn : 0 < n)
    (hnm : n ≤ i * (s.length + 1)) : 0 ≤ quantDelta s n i := by
  have hjn : quantJ s n i * n ≤ i * (s.length + 1) :=
    le_trans (Nat.mul_le_mul_right n (quantJ_le_div s n i hn hnm))
      (Nat.div_mul_le_self _ _)
  rw [quantDelta, sub_nonneg]
  exact_mod_cast hjn

/-- When no clamping occurs, the clamped index is the plain quotient. -/
lemma quantJ_eq (s : List ℚ) (n i : ℕ) (h1 : 1 ≤ i * (s.length + 1) / n)
    (hcl : i * (s.length + 1) / n ≤ s.length - 1) :
    quantJ s n i = i * (s.length + 1) / n := by
  unfold quantJ
  rw [if_neg (by omega), if_neg (by omega)]

/-- When no clamping occurs, delta is the remainder, hence at most `n`. -/
lemma quantDelta_le (s : List ℚ) (n i : ℕ) (hn : 0 < n)
    (h1 : 1 ≤ i * (s.length + 1) / n)
    (hcl : i * (s.length + 1) / n ≤ s.length - 1) :
    quantDelta s n i ≤ (n : ℤ) := by
  rw [quantDelta, quantJ_eq s n i h1 hcl, sub_le_iff_le_add]
  have hlt : i * (s.length + 1) < n * (i * (s.length + 1) / n) + n := by
    calc i * (s.length + 1)
        = n * (i * (s.length + 1) / n) + i * (s.length + 1) % n :=
          (Nat.div_add_mod _ _).symm
      _ < n * (i * (s.length + 1) / n) + n :=
          Nat.add_lt_add_left (Nat.mod_lt _ hn) _
  have hle : i * (s.length + 1) ≤ n + i * (s.length + 1) / n * n := by
    rw [Nat.mul_comm n (i * (s.length + 1) / n)] at hlt
    omega
  exact_mod_cast hle

/-- Lower bound of an exclusive-quantile cut point: whenever `n ≤ i*m` (no
lower clamp occurs, which holds for the p95 and p99 cut points on any data
of length at least 2), delta is nonnegative, so the cut point equals
`s[j-1] + delta*(s[j]-s[j-1])/n` with `s[j-1] ≤ s[j]` by sortedness, hence
is at least every lower bound of the data — even when the upper clamp makes
it extrapolate past the maximum. -/
lemma quantileCutPoint_ge (s : List ℚ) (n i : ℕ) (hn : 0 < n) (h2 : 2 ≤ s.length)
    (hnm : n ≤ i * (s.length + 1)) (hs : List.Sorted (· ≤ ·) s)
    (lo : ℚ) (hlo : ∀ x ∈ s, lo ≤ x) :
    lo ≤ quantileCutPoint s n i := by
  obtain ⟨hj1, hjle⟩ := quantJ_bounds s n i h2
  have hjlt : quantJ s n i < s.length := by omega
  unfold quantileCutPoint
  exact interp_ge_left _ _ lo n _ (quantDelta_nonneg s n i hn hnm) hn
    (sorted_getD_adj hs hj1 hjlt) (hlo _ (getD_mem (by omega)))

/-- Upper bound of an exclusive-quantile cut point: when the rescaled index
needs no clamping (`1 ≤ i*m/n` and `i*m/n ≤ len-1`), delta stays within
`[0, n]` and the cut point is a convex combination of two data elements,
hence at most every upper bound of the data.  (With an upper clamp this
fails: the point extrapolates beyond the maximum.) -/
lemma quantileCutPoint_le (s : List ℚ) (n i : ℕ) (hn : 0 < n) (h2 : 2 ≤ s.length)
    (h1 : 1 ≤ i * (s.length + 1) / n) (hcl : i * (s.length + 1) / n ≤ s.length - 1)
    (hi : ℚ) (hhi : ∀ x ∈ s, x ≤ hi) :
    quantileCutPoint s n i ≤ hi := by
  obtain ⟨hj1, hjle⟩ := quantJ_bounds s n i h2
  have hjlt : quantJ s n i < s.length := by omega
  have hnm : n ≤ i * (s.length + 1) := by
    rw [Nat.le_div_iff_mul_le hn] at h1
    omega
  unfold quantileCutPoint
  exact interp_le_of_bounds _ _ hi n _ (quantDelta_nonneg s n i hn hnm)
    (quantDelta_le s n i hn h1 hcl) hn
    (hhi _ (getD_mem (by omega))) (hhi _ (getD_mem hjlt))

/-- Membership in the sorted list is membership in the original list. -/
lemma pySorted_mem {l : List ℚ} {x : ℚ} : x ∈ pySorted l ↔ x ∈ l :=
  (List.perm_insertionSort _ l).mem_iff

lemma pySorted_length (l : List ℚ) : (pySorted l).length = l.length :=
  List.length_insertionSort _ l

lemma pySorted_sorted (l : List ℚ) : List.Sorted (· ≤ ·) (pySorted l) :=
  List.sorted_insertionSort _ l

/-- The code accesses quantile cut point `k` (0-based) of
`statistics.quantiles(data, n)`; this is the interpolation point for
`i = k + 1`. -/
lemma pyQuantiles_getElem (data : List ℚ) (n k : ℕ) (hn : 1 ≤ n)
    (h2 : 2 ≤ (pySorted data).length) (hk : k < n - 1) :
    ∃ qs, pyQuantiles data n = .ok qs ∧
      pyIndex qs k = .ok (quantileCutPoint (pySorted data) n (k + 1)) := by
  unfold pyQuantiles
  rw [if_neg (by omega), if_neg (by omega)]
  refine ⟨_, rfl, ?_⟩
  unfold pyIndex
  rw [List.getElem?_map, List.getElem?_range hk]
  rfl

/-- With more than one data point, the selector takes the quantile cut
point. -/
lemma quantSel_gt (ds : List ℚ) (n k : ℕ) (hn : 1 ≤ n) (h1 : 1 < ds.length)
    (hk : k < n - 1) :
    quantSel ds n k = .ok (quantileCutPoint (pySorted ds) n (k + 1)) := by
  have hs2 : 2 ≤ (pySorted ds).length := by rw [pySorted_length]; omega
  obtain ⟨qs, hq, hi⟩ := pyQuantiles_getElem ds n k hn hs2 hk
  unfold quantSel
  rw [if_pos h1, hq, ok_bind, hi]

/-- With a single data point, the selector takes that point. -/
lemma quantSel_one (d0 : ℚ) (n k : ℕ) : quantSel [d0] n k = .ok d0 := by
  unfold quantSel
  rw [if_neg (by simp)]
  rfl

lemma quantSel_ok (ds : List ℚ) (hds : ds ≠ []) (n k : ℕ) (hn : 1 ≤ n) (hk : k < n - 1) :
    ∃ v, quantSel ds n k = .ok v := by
  by_cases h1 : ds.length > 1
  · exact ⟨_, quantSel_gt ds n k hn h1 hk⟩
  · have hlen : ds.length = 1 := by
      have := List.length_pos.mpr hds
      omega
    obtain ⟨d0, rfl⟩ := List.length_eq_one.mp hlen
    exact ⟨d0, quantSel_one d0 n k⟩

lemma liftOpt_ok {β : Type} (b : Bool) (e : Except PyErr β)
    (h : b = true → ∃ v, e = .ok v) : ∃ o, liftOpt b e = .ok o := by
  cases b with
  | false => exact ⟨none, liftOpt_false rfl⟩
  | true =>
    obtain ⟨v, hv⟩ := h rfl
    exact ⟨some v, liftOpt_true rfl hv⟩

/-- Full characterization of the duration block: it succeeds on nonempty
data, its min/max fields are the Python min/max, and its p95/p99 fields are
the quantile cut points (length above 1) or the single value. -/
lemma durBlock_spec (l : List ℚ) (hl : l ≠ []) :
    ∃ d mn mx, pyMin l = .ok mn ∧ pyMax l = .ok mx ∧ durBlock l = .ok d ∧
      d.min_duration_ms = mn ∧ d.max_duration_ms = mx ∧
      ((1 < l.length ∧
         d.p95_duration_ms = quantileCutPoint (pySorted l) 20 19 ∧
         d.p99_duration_ms = quantileCutPoint (pySorted l) 100 99)
       ∨ (∃ d0, l = [d0] ∧ d.p95_duration_ms = d0 ∧ d.p99_duration_ms = d0)) := by
  obtain ⟨avg, havg⟩ := pyMean_ok l hl
  obtain ⟨mn, hmn, _, _⟩ := pyMin_spec l hl
  obtain ⟨mx, hmx, _, _⟩ := pyMax_spec l hl
  obtain ⟨med, hmed⟩ := pyMedian_ok l hl
  by_cases h1 : 1 < l.length
  · have hq95 := quantSel_gt l 20 18 (by omega) h1 (by omega)
    have hq99 := quantSel_gt l 100 98 (by omega) h1 (by omega)
    refine ⟨{ avg_duration_ms := avg, min_duration_ms := mn, max_duration_ms := mx,
              median_duration_ms := med, p50_duration_ms := med,
              p95_duration_ms := quantileCutPoint (pySorted l) 20 19,
              p99_duration_ms := quantileCutPoint (pySorted l) 100 99 },
            mn, mx, hmn, hmx, ?_, rfl, rfl, .inl ⟨h1, rfl, rfl⟩⟩
    unfold durBlock
    simp only [havg, hmn, hmx, hmed, hq95, hq99, ok_bind]
  · have hlen : l.length = 1 := by
      have := List.length_pos.mpr hl
      omega
    obtain ⟨d0, rfl⟩ := List.length_eq_one.mp hlen
    refine ⟨{ avg_duration_ms := avg, min_duration_ms := mn, max_duration_ms := mx,
              median_duration_ms := med, p50_duration_ms := med,
              p95_duration_ms := d0, p99_duration_ms := d0 },
            mn, mx, hmn, hmx, ?_, rfl, rfl, .inr ⟨d0, rfl, rfl, rfl⟩⟩
    unfold durBlock
    simp only [havg, hmn, hmx, hmed, quantSel_one, ok_bind]

lemma thrBlock_ok (ts : List ℚ) (h : ts ≠ []) : ∃ t, thrBlock ts = .ok t := by
  obtain ⟨avg, havg⟩ := pyMean_ok ts h
  obtain ⟨mn, hmn, _, _⟩ := pyMin_spec ts h
  obtain ⟨mx, hmx, _, _⟩ := pyMax_spec ts h
  refine ⟨{ avg_throughput_mbps := avg, min_throughput_mbps := mn,
            max_throughput_mbps := mx }, ?_⟩
  unfold thrBlock
  simp only [havg, hmn, hmx, ok_bind]

/-- The per-category block succeeds on a nonempty record class and reports
the class size in its operations field. -/
lemma opClassBlock_spec (l : List TestMetrics) (hl : l ≠ []) :
    ∃ o, opClassBlock l = .ok o ∧ o.operations = l.length := by
  have hds : l.map TestMetrics.duration_ms ≠ [] := by
    intro hc
    exact hl (List.map_eq_nil_iff.mp hc)
  obtain ⟨ts, hts⟩ := posThroughputs_ok l
  obtain ⟨avg, havg⟩ := pyMean_ok _ hds
  obtain ⟨mn, hmn, _, _⟩ := pyMin_spec _ hds
  obtain ⟨mx, hmx, _, _⟩ := pyMax_spec _ hds
  obtain ⟨med, hmed⟩ := pyMedian_ok _ hds
  obtain ⟨p95, hp95⟩ := quantSel_ok _ hds 20 18 (by omega) (by omega)
  obtain ⟨p99, hp99⟩ := quantSel_ok _ hds 100 98 (by omega) (by omega)
  obtain ⟨avgT, havgT⟩ := liftOpt_ok (!ts.isEmpty) (pyMean ts) (by
    intro hb
    exact pyMean_ok ts (by simpa [List.isEmpty_iff] using hb))
  refine ⟨{ operations := l.length,
            data_mb := (l.map (fun m => (m.data_size_bytes : ℚ))).sum / (1024 * 1024),
            avg_duration_ms := avg, min_duration_ms := mn, max_duration_ms := mx,
            p50_duration_ms := med, p95_duration_ms := p95, p99_duration_ms := p99,
            avg_throughput_mbps := avgT }, ?_, rfl⟩
  unfold opClassBlock
  simp only [hts, havg, hmn, hmx, hmed, hp95, hp99, havgT, ok_bind]

/-- Unfolded form of get_summary on a nonempty metric list, given the
results of each fallible sub-computation. -/
lemma getSummary_eq_stats (name : String) (ms : List TestMetrics)
    (ts : List ℚ) (odur : Option DurStats) (othr : Option ThroughputStats)
    (ord owr : Option OpClassStats)
    (h : ms ≠ [])
    (hts : posThroughputs (successfulOf ms) = .ok ts)
    (hdur : liftOpt (!(durationsOf ms).isEmpty) (durBlock (durationsOf ms)) = .ok odur)
    (hthr : liftOpt (!ts.isEmpty) (thrBlock ts) = .ok othr)
    (hrd : liftOpt (!(taggedOf "read" (successfulOf ms)).isEmpty)
      (opClassBlock (taggedOf "read" (successfulOf ms))) = .ok ord)
    (hwr : liftOpt (!(taggedOf "write" (successfulOf ms)).isEmpty)
      (opClassBlock (taggedOf "write" (successfulOf ms))) = .ok owr) :
    getSummary name ms = .ok (.stats
      { load_profile := name,
        total_operations := ms.length,
        successful_operations := (successfulOf ms).length,
        failed_operations := (ms.filter (fun m => !m.success)).length,
        success_rate := ((successfulOf ms).length : ℚ) / (ms.length : ℚ) * 100,
        total_data_transferred_mb :=
          ((successfulOf ms).map (fun m => (m.data_size_bytes : ℚ))).sum / (1024 * 1024),
        durStats := odur, thrStats := othr, readStats := ord, writeStats := owr }) := by
  have hne : ms.isEmpty = false := by simp [List.isEmpty_iff, h]
  have hlen : ((ms.length : ℚ)) ≠ 0 := by
    have : ms.length ≠ 0 := by
      simpa [List.length_eq_zero] using h
    exact_mod_cast this
  have hdiv : pyDiv ((successfulOf ms).length : ℚ) (ms.length : ℚ) =
      .ok (((successfulOf ms).length : ℚ) / (ms.length : ℚ)) := by
    simp [pyDiv, hlen]
  simp only [getSummary, hne, Bool.false_eq_true, if_false,
    hts, hdiv, hdur, hthr, hrd, hwr, ok_bind]

lemma durationsOf_length (ms : List TestMetrics) :
    (durationsOf ms).length = (successfulOf ms).length :=
  List.length_map _ _

lemma durationsOf_ne_nil {ms : List TestMetrics} (h : successfulOf ms ≠ []) :
    durationsOf ms ≠ [] := by
  intro hc
  exact h (List.map_eq_nil_iff.mp hc)

lemma classBlockOpt (l : List TestMetrics) :
    ∃ o, liftOpt (!l.isEmpty) (opClassBlock l) = .ok o ∧
      (o.isSome ↔ l ≠ []) ∧ (∀ c, o = some c → c.operations = l.length) := by
  by_cases hl : l = []
  · subst hl
    exact ⟨none, liftOpt_false (by simp), by simp, by simp⟩
  · obtain ⟨c, hc, hop⟩ := opClassBlock_spec l hl
    refine ⟨some c, liftOpt_true (by simp [hl]) hc, by simp [hl], ?_⟩
    intro c2 h2
    injection h2 with h3
    rw [← h3]
    exact hop

/-- Main characterization of get_summary on a record set with at least one
successful record: the summary exists, its duration block is the durBlock of
the successful durations, and each category sub-summary is present exactly
when its record class is nonempty, reporting the class size. -/
lemma getSummary_full (name : String) (ms : List TestMetrics)
    (hs : successfulOf ms ≠ []) :
    ∃ s d, getSummary name ms = .ok (.stats s) ∧ s.durStats = some d ∧
      durBlock (durationsOf ms) = .ok d ∧
      s.successful_operations = (successfulOf ms).length ∧
      (s.readStats.isSome ↔ taggedOf "read" (successfulOf ms) ≠ []) ∧
      (s.writeStats.isSome ↔ taggedOf "write" (successfulOf ms) ≠ []) ∧
      (∀ c, s.readStats = some c → c.operations = (taggedOf "read" (successfulOf ms)).length) ∧
      (∀ c, s.writeStats = some c → c.operations = (taggedOf "write" (successfulOf ms)).length) := by
  have hms : ms ≠ [] := by
    intro hc
    exact hs (by simp [successfulOf, hc])
  have hdne : durationsOf ms ≠ [] := durationsOf_ne_nil hs
  obtain ⟨ts, hts⟩ := posThroughputs_ok (successfulOf ms)
  obtain ⟨d, mn, mx, hmn, hmx, hdb, _, _, _⟩ := durBlock_spec (durationsOf ms) hdne
  have hdur : liftOpt (!(durationsOf ms).isEmpty) (durBlock (durationsOf ms)) = .ok (some d) :=
    liftOpt_true (by simp [List.isEmpty_iff, hdne]) hdb
  obtain ⟨othr, hthr⟩ := liftOpt_ok (!ts.isEmpty) (thrBlock ts) (by
    intro hb
    exact thrBlock_ok ts (by simpa [List.isEmpty_iff] using hb))
  obtain ⟨ord, hrd, hrdSome, hrdOps⟩ := classBlockOpt (taggedOf "read" (successfulOf ms))
  obtain ⟨owr, hwr, hwrSome, hwrOps⟩ := classBlockOpt (taggedOf "write" (successfulOf ms))
  refine ⟨_, d, getSummary_eq_stats name ms ts (some d) othr ord owr hms hts hdur hthr hrd hwr,
    rfl, hdb, rfl, hrdSome, hwrSome, hrdOps, hwrOps⟩

/-- C3 (amended): with at least two successful records, the p95 and p99
duration values reported by get_summary are at least the minimum successful
duration (delta is nonnegative, so each cut point is at least its left
sorted neighbour); they are at most the maximum successful duration only
once no clamping occurs — at least 20 successful records for p95 and at
least 100 for p99 — because below those sizes statistics.quantiles
(exclusive) extrapolates past the maximum; with exactly one successful
record both equal that single duration. -/
theorem c3_percentiles_between_min_max (name : String) (ms : List TestMetrics) :
    (2 ≤ (successfulOf ms).length →
      ∃ s d mn, getSummary name ms = .ok (.stats s) ∧ s.durStats = some d ∧
        pyMin (durationsOf ms) = .ok mn ∧
        mn ≤ d.p95_duration_ms ∧ mn ≤ d.p99_duration_ms ∧
        (20 ≤ (successfulOf ms).length →
          ∃ mx, pyMax (durationsOf ms) = .ok mx ∧ d.p95_duration_ms ≤ mx) ∧
        (100 ≤ (successfulOf ms).length →
          ∃ mx, pyMax (durationsOf ms) = .ok mx ∧ d.p99_duration_ms ≤ mx))
    ∧ ((successfulOf ms).length = 1 →
      ∃ s d d0, getSummary name ms = .ok (.stats s) ∧ s.durStats = some d ∧
        durationsOf ms = [d0] ∧ d.p95_duration_ms = d0 ∧ d.p99_duration_ms = d0) := by
  constructor
  · intro h2
    have hs : successfulOf ms ≠ [] := by
      intro hc
      rw [hc] at h2
      simp at h2
    have hdne : durationsOf ms ≠ [] := durationsOf_ne_nil hs
    have hdlen : 1 < (durationsOf ms).length := by
      rw [durationsOf_length]
      omega
    obtain ⟨s, d, hsum, hds, hdb, _, _, _, _, _⟩ := getSummary_full name ms hs
    obtain ⟨d2, mn, mx, hmn, hmx, hdb2, hdmin, hdmax, hchar⟩ :=
      durBlock_spec (durationsOf ms) hdne
    have hd2 : d2 = d := by
      rw [hdb] at hdb2
      injection hdb2 with h3
      exact h3.symm
    rw [hd2] at hchar
    obtain ⟨mn2, hmn2, _, hmnle⟩ := pyMin_spec (durationsOf ms) hdne
    have hlo : ∀ x ∈ pySorted (durationsOf ms), mn2 ≤ x := by
      intro x hx
      exact hmnle x (pySorted_mem.mp hx)
    have hs2 : 2 ≤ (pySorted (durationsOf ms)).length := by
      rw [pySorted_length]
      omega
    have hsort := pySorted_sorted (durationsOf ms)
    rcases hchar with ⟨_, hp95, hp99⟩ | ⟨d0, hl1, _, _⟩
    · have hge95 := quantileCutPoint_ge (pySorted (durationsOf ms)) 20 19
        (by omega) hs2 (by rw [pySorted_length]; omega) hsort mn2 hlo
      have hge99 := quantileCutPoint_ge (pySorted (durationsOf ms)) 100 99
        (by omega) hs2 (by rw [pySorted_length]; omega) hsort mn2 hlo
      refine ⟨s, d, mn2, hsum, hds, hmn2, hp95 ▸ hge95, hp99 ▸ hge99, ?_, ?_⟩
      · intro h20
        have hN : 20 ≤ (durationsOf ms).length := by
          rw [durationsOf_length]
          omega
        obtain ⟨mx2, hmx2, _, hmxle⟩ := pyMax_spec (durationsOf ms) hdne
        have hhi : ∀ x ∈ pySorted (durationsOf ms), x ≤ mx2 := by
          intro x hx
          exact hmxle x (pySorted_mem.mp hx)
        have hle := quantileCutPoint_le (pySorted (durationsOf ms)) 20 19
          (by omega) hs2 (by rw [pySorted_length]; omega)
          (by rw [pySorted_length]; omega) mx2 hhi
        exact ⟨mx2, hmx2, hp95 ▸ hle⟩
      · intro h100
        have hN : 100 ≤ (durationsOf ms).length := by
          rw [durationsOf_length]
          omega
        obtain ⟨mx2, hmx2, _, hmxle⟩ := pyMax_spec (durationsOf ms) hdne
        have hhi : ∀ x ∈ pySorted (durationsOf ms), x ≤ mx2 := by
          intro x hx
          exact hmxle x (pySorted_mem.mp hx)
        have hle := quantileCutPoint_le (pySorted (durationsOf ms)) 100 99
          (by omega) hs2 (by rw [pySorted_length]; omega)
          (by rw [pySorted_length]; omega) mx2 hhi
        exact ⟨mx2, hmx2, hp99 ▸ hle⟩
    · rw [hl1] at hdlen
      simp at hdlen
  · intro h1
    have hs : successfulOf ms ≠ [] := by
      intro hc
      rw [hc] at h1
      simp at h1
    have hdne : durationsOf ms ≠ [] := durationsOf_ne_nil hs
    have hdlen : (durationsOf ms).length = 1 := by
      rw [durationsOf_length]
      omega
    obtain ⟨s, d, hsum, hds, hdb, _, _, _, _, _⟩ := getSummary_full name ms hs
    obtain ⟨d2, mn, mx, hmn, hmx, hdb2, _, _, hchar⟩ :=
      durBlock_spec (durationsOf ms) hdne
    have hd2 : d2 = d := by
      rw [hdb] at hdb2
      injection hdb2 with h3
      exact h3.symm
    rw [hd2] at hchar
    rcases hchar with ⟨hgt, _, _⟩ | ⟨d0, hl1, hp95, hp99⟩
    · omega
    · exact ⟨s, d, d0, hsum, hds, hl1, hp95, hp99⟩

/-- C2 (amended): with at least two successful records, p95/p99 are the
interpolated exclusive quantile cut points of Python statistics.quantiles
(cut 19 of 20 and cut 99 of 100) over the sorted successful durations, not
a plain sorted-index lookup; with exactly one successful record both equal
that single duration. -/
theorem c2_percentile_method (name : String) (ms : List TestMetrics) :
    (2 ≤ (successfulOf ms).length →
      ∃ s d, getSummary name ms = .ok (.stats s) ∧ s.durStats = some d ∧
        d.p95_duration_ms = quantileCutPoint (pySorted (durationsOf ms)) 20 19 ∧
        d.p99_duration_ms = quantileCutPoint (pySorted (durationsOf ms)) 100 99)
    ∧ ((successfulOf ms).length = 1 →
      ∃ s d d0, getSummary name ms = .ok (.stats s) ∧ s.durStats = some d ∧
        durationsOf ms = [d0] ∧ d.p95_duration_ms = d0 ∧ d.p99_duration_ms = d0) := by
  constructor
  · intro h2
    have hs : successfulOf ms ≠ [] := by
      intro hc
      rw [hc] at h2
      simp at h2
    have hdne : durationsOf ms ≠ [] := durationsOf_ne_nil hs
    have hdlen : 1 < (durationsOf ms).length := by
      rw [durationsOf_length]
      omega
    obtain ⟨s, d, hsum, hds, hdb, _, _, _, _, _⟩ := getSummary_full name ms hs
    obtain ⟨d2, mn, mx, hmn, hmx, hdb2, _, _, hchar⟩ :=
      durBlock_spec (durationsOf ms) hdne
    have hd2 : d2 = d := by
      rw [hdb] at hdb2
      injection hdb2 with h3
      exact h3.symm
    rw [hd2] at hchar
    rcases hchar with ⟨_, hp95, hp99⟩ | ⟨d0, hl1, _, _⟩
    · exact ⟨s, d, hsum, hds, hp95, hp99⟩
    · rw [hl1] at hdlen
      simp at hdlen
  · intro h1
    have hs : successfulOf ms ≠ [] := by
      intro hc
      rw [hc] at h1
      simp at h1
    have hdne : durationsOf ms ≠ [] := durationsOf_ne_nil hs
    have hdlen : (durationsOf ms).length = 1 := by
      rw [durationsOf_length]
      omega
    obtain ⟨s, d, hsum, hds, hdb, _, _, _, _, _⟩ := getSummary_full name ms hs
    obtain ⟨d2, mn, mx, hmn, hmx, hdb2, _, _, hchar⟩ :=
      durBlock_spec (durationsOf ms) hdne
    have hd2 : d2 = d := by
      rw [hdb] at hdb2
      injection hdb2 with h3
      exact h3.symm
    rw [hd2] at hchar
    rcases hchar with ⟨hgt, _, _⟩ | ⟨d0, hl1, hp95, hp99⟩
    · omega
    · exact ⟨s, d, d0, hsum, hds, hl1, hp95, hp99⟩

/-- C4 (amended): the read sub-summary is present iff at least one
SUCCESSFUL record has "read" in its lowered operation_type (failed records
never count, since the category filters run over the successful list), and
likewise for write; each category count is at most successful_operations,
and their sum is at most successful_operations provided no successful
record matches both categories at once (the two filters can overlap on an
operation_type containing both substrings). -/
theorem c4_category_sub_summaries (name : String) (ms : List TestMetrics)
    (h : ms ≠ []) :
    ∃ s, getSummary name ms = .ok (.stats s) ∧
      (s.readStats.isSome ↔
        ∃ m ∈ successfulOf ms, strContains (pyLower m.operation_type) "read" = true) ∧
      (s.writeStats.isSome ↔
        ∃ m ∈ successfulOf ms, strContains (pyLower m.operation_type) "write" = true) ∧
      (∀ c, s.readStats = some c → c.operations ≤ s.successful_operations) ∧
      (∀ c, s.writeStats = some c → c.operations ≤ s.successful_operations) ∧
      ((∀ m ∈ successfulOf ms,
          ¬(strContains (pyLower m.operation_type) "read" = true ∧
            strContains (pyLower m.operation_type) "write" = true)) →
        ∀ cr cw, s.readStats = some cr → s.writeStats = some cw →
          cr.operations + cw.operations ≤ s.successful_operations) := by
  have hfilter : ∀ tag : String, taggedOf tag (successfulOf ms) ≠ [] ↔
      ∃ m ∈ successfulOf ms, strContains (pyLower m.operation_type) tag = true := by
    intro tag
    constructor
    · intro hne
      obtain ⟨m, hm⟩ := List.exists_mem_of_ne_nil _ hne
      have := List.mem_filter.mp hm
      exact ⟨m, this.1, this.2⟩
    · rintro ⟨m, hm, htag⟩ hc
      have : m ∈ taggedOf tag (successfulOf ms) :=
        List.mem_filter.mpr ⟨hm, htag⟩
      rw [hc] at this
      simp at this
  by_cases hs : successfulOf ms = []
  · -- no successful record: both category lists are empty, both blocks absent
    obtain ⟨ts, hts⟩ := posThroughputs_ok (successfulOf ms)
    have hdjoin : durationsOf ms = [] := by
      simp [durationsOf, hs]
    have hdur : liftOpt (!(durationsOf ms).isEmpty) (durBlock (durationsOf ms)) = .ok none :=
      liftOpt_false (by simp [hdjoin])
    obtain ⟨othr, hthr⟩ := liftOpt_ok (!ts.isEmpty) (thrBlock ts) (by
      intro hb
      exact thrBlock_ok ts (by simpa [List.isEmpty_iff] using hb))
    have hrd : liftOpt (!(taggedOf "read" (successfulOf ms)).isEmpty)
        (opClassBlock (taggedOf "read" (successfulOf ms))) = .ok none :=
      liftOpt_false (by simp [hs, taggedOf])
    have hwr : liftOpt (!(taggedOf "write" (successfulOf ms)).isEmpty)
        (opClassBlock (taggedOf "write" (successfulOf ms))) = .ok none :=
      liftOpt_false (by simp [hs, taggedOf])
    refine ⟨_, getSummary_eq_stats name ms ts none othr none none h hts hdur hthr hrd hwr,
      ?_, ?_, ?_, ?_, ?_⟩
    · simp [← hfilter, hs, taggedOf]
    · simp [← hfilter, hs, taggedOf]
    · intro c hc
      simp at hc
    · intro c hc
      simp at hc
    · intro _ cr cw hcr _
      simp at hcr
  · obtain ⟨s, d, hsum, _, _, hsucc, hrdSome, hwrSome, hrdOps, hwrOps⟩ :=
      getSummary_full name ms hs
    refine ⟨s, hsum, by rw [hrdSome]; exact hfilter "read",
      by rw [hwrSome]; exact hfilter "write", ?_, ?_, ?_⟩
    · intro c hc
      rw [hrdOps c hc, hsucc]
      exact List.length_filter_le _ _
    · intro c hc
      rw [hwrOps c hc, hsucc]
      exact List.length_filter_le _ _
    · intro hdisj cr cw hcr hcw
      rw [hrdOps cr hcr, hwrOps cw hcw, hsucc]
      exact length_filter_add_le _ _ (successfulOf ms) hdisj

/-- A successful record with duration 0 ms and neither category tag. -/
def cexOpA : TestMetrics :=
  { operation_type := "op", start_time := 0, end_time := 0, success := true }

/-- A successful record with duration 100 ms and neither category tag. -/
def cexOpB : TestMetrics :=
  { operation_type := "op", start_time := 0, end_time := 1/10, success := true }

/-- A FAILED record whose operation_type contains "read". -/
def cexFailedRead : TestMetrics :=
  { operation_type := "large_read", start_time := 0, end_time := 0,
    success := false, error_message := some "ORA-00001" }

/-- A successful record whose operation_type contains both "read" and
"write". -/
def cexReadWrite : TestMetrics :=
  { operation_type := "read_write", start_time := 0, end_time := 1/1000,
    success := true }

/-- The p95/p99 selection rule exactly as the claim states it: the element
at index ⌈p·N⌉ − 1 of the ascending-sorted values. -/
def claimRankQuantile (l : List ℚ) (p : ℚ) : ℚ :=
  (pySorted l).getD ((⌈p * (l.length : ℚ)⌉).toNat - 1) 0

/-- Extract the (p95, p99) duration pair from a summary, when present. -/
def summaryDurP95P99 (r : Except PyErr SummaryResult) : Option (ℚ × ℚ) :=
  match r with
  | .ok (.stats s) => s.durStats.map (fun d => (d.p95_duration_ms, d.p99_duration_ms))
  | _ => none

/-- Extract whether the read sub-summary is present. -/
def readStatsPresent (r : Except PyErr SummaryResult) : Option Bool :=
  match r with
  | .ok (.stats s) => some s.readStats.isSome
  | _ => none

/-- Extract (successful count, read count, write count) from a summary. -/
def summaryCounts (r : Except PyErr SummaryResult) : Option (ℕ × Option ℕ × Option ℕ) :=
  match r with
  | .ok (.stats s) => some (s.successful_operations,
      s.readStats.map (fun c => c.operations), s.writeStats.map (fun c => c.operations))
  | _ => none

lemma cex2_durations : durationsOf [cexOpA, cexOpB] = [0, 100] := by
  norm_num [durationsOf, successfulOf, cexOpA, cexOpB, TestMetrics.duration_ms]

lemma cex2_sorted : pySorted [0, 100] = [0, 100] := by
  norm_num [pySorted, List.insertionSort, List.orderedInsert]

lemma cex2_cut95 : quantileCutPoint [0, 100] 20 19 = 185 := by
  norm_num [quantileCutPoint, quantJ, quantDelta, List.getD]

lemma cex2_cut99 : quantileCutPoint [0, 100] 100 99 = 197 := by
  norm_num [quantileCutPoint, quantJ, quantDelta, List.getD]

lemma cex2_durBlock : durBlock [0, 100] = .ok
    { avg_duration_ms := 50, min_duration_ms := 0, max_duration_ms := 100,
      median_duration_ms := 50, p50_duration_ms := 50,
      p95_duration_ms := 185, p99_duration_ms := 197 } := by
  have hmean : pyMean [0, 100] = .ok 50 := by norm_num [pyMean]
  have hmin : pyMin [0, 100] = .ok 0 := by
    norm_num [pyMin, List.min?, List.foldl, min_def]
  have hmax : pyMax [0, 100] = .ok 100 := by
    norm_num [pyMax, List.max?, List.foldl, max_def]
  have hmed : pyMedian [0, 100] = .ok 50 := by
    norm_num [pyMedian, pySorted, List.insertionSort, List.orderedInsert, List.getD]
  have hq95 : quantSel [0, 100] 20 18 = .ok 185 := by
    rw [quantSel_gt [0, 100] 20 18 (by norm_num) (by norm_num) (by norm_num),
      cex2_sorted, cex2_cut95]
  have hq99 : quantSel [0, 100] 100 98 = .ok 197 := by
    rw [quantSel_gt [0, 100] 100 98 (by norm_num) (by norm_num) (by norm_num),
      cex2_sorted, cex2_cut99]
  unfold durBlock
  simp only [hmean, hmin, hmax, hmed, hq95, hq99, ok_bind]

lemma cex2_throughputs : posThroughputs [cexOpA, cexOpB] = .ok [] := by
  norm_num [posThroughputs, mapExcept, TestMetrics.throughput_mbps,
    TestMetrics.duration_ms, pyDiv, cexOpA, cexOpB, ok_bind]

lemma cex2_summary : getSummary "x" [cexOpA, cexOpB] = .ok (.stats
    { load_profile := "x", total_operations := 2, successful_operations := 2,
      failed_operations := 0, success_rate := (2 : ℚ) / 2 * 100,
      total_data_transferred_mb := 0 / (1024 * 1024),
      durStats := some
        { avg_duration_ms := 50, min_duration_ms := 0, max_duration_ms := 100,
          median_duration_ms := 50, p50_duration_ms := 50,
          p95_duration_ms := 185, p99_duration_ms := 197 },
      thrStats := none, readStats := none, writeStats := none }) := by
  have hsuc : successfulOf [cexOpA, cexOpB] = [cexOpA, cexOpB] := rfl
  have hdur : liftOpt (!(durationsOf [cexOpA, cexOpB]).isEmpty)
      (durBlock (durationsOf [cexOpA, cexOpB])) = .ok (some
        { avg_duration_ms := 50, min_duration_ms := 0, max_duration_ms := 100,
          median_duration_ms := 50, p50_duration_ms := 50,
          p95_duration_ms := 185, p99_duration_ms := 197 }) := by
    rw [cex2_durations]
    exact liftOpt_true (by norm_num) cex2_durBlock
  have hread : taggedOf "read" (successfulOf [cexOpA, cexOpB]) = [] := rfl
  have hwrite : taggedOf "write" (successfulOf [cexOpA, cexOpB]) = [] := rfl
  have hrd : liftOpt (!(taggedOf "read" (successfulOf [cexOpA, cexOpB])).isEmpty)
      (opClassBlock (taggedOf "read" (successfulOf [cexOpA, cexOpB]))) = .ok none := by
    rw [hread]
    exact liftOpt_false rfl
  have hwr : liftOpt (!(taggedOf "write" (successfulOf [cexOpA, cexOpB])).isEmpty)
      (opClassBlock (taggedOf "write" (successfulOf [cexOpA, cexOpB]))) = .ok none := by
    rw [hwrite]
    exact liftOpt_false rfl
  have h := getSummary_eq_stats "x" [cexOpA, cexOpB] [] (some
      { avg_duration_ms := 50, min_duration_ms := 0, max_duration_ms := 100,
        median_duration_ms := 50, p50_duration_ms := 50,
        p95_duration_ms := 185, p99_duration_ms := 197 }) none none none
    (by simp) (hsuc ▸ cex2_throughputs) hdur (by exact liftOpt_false rfl) hrd hwr
  rw [h]
  norm_num [successfulOf, cexOpA, cexOpB]

/-- C2 counterexample: on two successful records with durations 0 ms and
100 ms, the code reports p95 = 185 and p99 = 197 (statistics.quantiles
exclusive cut points, whose delta is computed after the clamp and here
extrapolates past the data), while the sorted-index rule of the claim
(element at index ⌈0.95·N⌉−1 resp. ⌈0.99·N⌉−1) picks 100 for both; so the
claim as stated is false at this input. -/
theorem c2_counterexample :
    2 ≤ (successfulOf [cexOpA, cexOpB]).length
    ∧ summaryDurP95P99 (getSummary "x" [cexOpA, cexOpB]) = some (185, 197)
    ∧ claimRankQuantile (durationsOf [cexOpA, cexOpB]) (95 / 100) = 100
    ∧ claimRankQuantile (durationsOf [cexOpA, cexOpB]) (99 / 100) = 100
    ∧ ((185 : ℚ) ≠ 100 ∧ (197 : ℚ) ≠ 100) := by
  refine ⟨by norm_num [successfulOf, cexOpA, cexOpB], ?_, ?_, ?_, by norm_num⟩
  · rw [cex2_summary]
    rfl
  · rw [cex2_durations]
    norm_num [claimRankQuantile, cex2_sorted]
    have hc : ⌈(19 : ℚ) / 10⌉ = (2 : ℤ) := by
      rw [Int.ceil_eq_iff]
      norm_num
    rw [hc]
    rfl
  · rw [cex2_durations]
    norm_num [claimRankQuantile, cex2_sorted]
    have hc : ⌈(99 : ℚ) / 50⌉ = (2 : ℤ) := by
      rw [Int.ceil_eq_iff]
      norm_num
    rw [hc]
    rfl

lemma cex4_summary1 : getSummary "x" [cexFailedRead] = .ok (.stats
    { load_profile := "x", total_operations := 1,
      successful_operations := (successfulOf [cexFailedRead]).length,
      failed_operations := ([cexFailedRead].filter (fun m => !m.success)).length,
      success_rate := ((successfulOf [cexFailedRead]).length : ℚ) / (([cexFailedRead] : List TestMetrics).length : ℚ) * 100,
      total_data_transferred_mb :=
        ((successfulOf [cexFailedRead]).map (fun m => (m.data_size_bytes : ℚ))).sum / (1024 * 1024),
      durStats := none, thrStats := none, readStats := none, writeStats := none }) := by
  exact getSummary_eq_stats "x" [cexFailedRead] [] none none none none
    (by simp) rfl (liftOpt_false rfl) (liftOpt_false rfl) (liftOpt_false rfl)
    (liftOpt_false rfl)

lemma cex4_durations : durationsOf [cexReadWrite, cexReadWrite] = [1, 1] := by
  norm_num [durationsOf, successfulOf, cexReadWrite, TestMetrics.duration_ms]

lemma cex4_map : [cexReadWrite, cexReadWrite].map TestMetrics.duration_ms = [1, 1] := by
  norm_num [cexReadWrite, TestMetrics.duration_ms]

lemma cex4_durBlock : durBlock [1, 1] = .ok
    { avg_duration_ms := 1, min_duration_ms := 1, max_duration_ms := 1,
      median_duration_ms := 1, p50_duration_ms := 1,
      p95_duration_ms := 1, p99_duration_ms := 1 } := by
  have hmean : pyMean [1, 1] = .ok 1 := by norm_num [pyMean]
  have hmin : pyMin [1, 1] = .ok 1 := by
    norm_num [pyMin, List.min?, List.foldl, min_def]
  have hmax : pyMax [1, 1] = .ok 1 := by
    norm_num [pyMax, List.max?, List.foldl, max_def]
  have hmed : pyMedian [1, 1] = .ok 1 := by
    norm_num [pyMedian, pySorted, List.insertionSort, List.orderedInsert, List.getD]
  have hsort : pySorted [1, 1] = [1, 1] := by
    norm_num [pySorted, List.insertionSort, List.orderedInsert]
  have hq95 : quantSel [1, 1] 20 18 = .ok 1 := by
    rw [quantSel_gt [1, 1] 20 18 (by norm_num) (by norm_num) (by norm_num), hsort]
    norm_num [quantileCutPoint, quantJ, quantDelta, List.getD]
  have hq99 : quantSel [1, 1] 100 98 = .ok 1 := by
    rw [quantSel_gt [1, 1] 100 98 (by norm_num) (by norm_num) (by norm_num), hsort]
    norm_num [quantileCutPoint, quantJ, quantDelta, List.getD]
  unfold durBlock
  simp only [hmean, hmin, hmax, hmed, hq95, hq99, ok_bind]

lemma cex4_throughputs : posThroughputs [cexReadWrite, cexReadWrite] = .ok [] := by
  norm_num [posThroughputs, mapExcept, TestMetrics.throughput_mbps,
    TestMetrics.duration_ms, pyDiv, cexReadWrite, ok_bind]

lemma cex4_opClassBlock : opClassBlock [cexReadWrite, cexReadWrite] = .ok
    { operations := 2,
      data_mb := ([cexReadWrite, cexReadWrite].map (fun m => (m.data_size_bytes : ℚ))).sum / (1024 * 1024),
      avg_duration_ms := 1, min_duration_ms := 1, max_duration_ms := 1,
      p50_duration_ms := 1, p95_duration_ms := 1, p99_duration_ms := 1,
      avg_throughput_mbps := none } := by
  have hmean : pyMean [1, 1] = .ok 1 := by norm_num [pyMean]
  have hmin : pyMin [1, 1] = .ok 1 := by
    norm_num [pyMin, List.min?, List.foldl, min_def]
  have hmax : pyMax [1, 1] = .ok 1 := by
    norm_num [pyMax, List.max?, List.foldl, max_def]
  have hmed : pyMedian [1, 1] = .ok 1 := by
    norm_num [pyMedian, pySorted, List.insertionSort, List.orderedInsert, List.getD]
  have hsort : pySorted [1, 1] = [1, 1] := by
    norm_num [pySorted, List.insertionSort, List.orderedInsert]
  have hq95 : quantSel [1, 1] 20 18 = .ok 1 := by
    rw [quantSel_gt [1, 1] 20 18 (by norm_num) (by norm_num) (by norm_num), hsort]
    norm_num [quantileCutPoint, quantJ, quantDelta, List.getD]
  have hq99 : quantSel [1, 1] 100 98 = .ok 1 := by
    rw [quantSel_gt [1, 1] 100 98 (by norm_num) (by norm_num) (by norm_num), hsort]
    norm_num [quantileCutPoint, quantJ, quantDelta, List.getD]
  unfold opClassBlock
  rw [cex4_map]
  simp only [cex4_throughputs, hmean, hmin, hmax, hmed, hq95, hq99, ok_bind]
  rfl

lemma cex4_summary2 : summaryCounts (getSummary "x" [cexReadWrite, cexReadWrite]) =
    some (2, some 2, some 2) := by
  have hsuc : successfulOf [cexReadWrite, cexReadWrite] = [cexReadWrite, cexReadWrite] := rfl
  have hread : taggedOf "read" (successfulOf [cexReadWrite, cexReadWrite]) =
      [cexReadWrite, cexReadWrite] := rfl
  have hwrite : taggedOf "write" (successfulOf [cexReadWrite, cexReadWrite]) =
      [cexReadWrite, cexReadWrite] := rfl
  have hdur : liftOpt (!(durationsOf [cexReadWrite, cexReadWrite]).isEmpty)
      (durBlock (durationsOf [cexReadWrite, cexReadWrite])) = .ok (some
        { avg_duration_ms := 1, min_duration_ms := 1, max_duration_ms := 1,
          median_duration_ms := 1, p50_duration_ms := 1,
          p95_duration_ms := 1, p99_duration_ms := 1 }) := by
    rw [cex4_durations]
    exact liftOpt_true (by norm_num) cex4_durBlock
  have hrd : liftOpt (!(taggedOf "read" (successfulOf [cexReadWrite, cexReadWrite])).isEmpty)
      (opClassBlock (taggedOf "read" (successfulOf [cexReadWrite, cexReadWrite]))) = .ok (some
        { operations := 2,
          data_mb := ([cexReadWrite, cexReadWrite].map (fun m => (m.data_size_bytes : ℚ))).sum / (1024 * 1024),
          avg_duration_ms := 1, min_duration_ms := 1, max_duration_ms := 1,
          p50_duration_ms := 1, p95_duration_ms := 1, p99_duration_ms := 1,
          avg_throughput_mbps := none }) := by
    rw [hread]
    exact liftOpt_true rfl cex4_opClassBlock
  have hwr : liftOpt (!(taggedOf "write" (successfulOf [cexReadWrite, cexReadWrite])).isEmpty)
      (opClassBlock (taggedOf "write" (successfulOf [cexReadWrite, cexReadWrite]))) = .ok (some
        { operations := 2,
          data_mb := ([cexReadWrite, cexReadWrite].map (fun m => (m.data_size_bytes : ℚ))).sum / (1024 * 1024),
          avg_duration_ms := 1, min_duration_ms := 1, max_duration_ms := 1,
          p50_duration_ms := 1, p95_duration_ms := 1, p99_duration_ms := 1,
          avg_throughput_mbps := none }) := by
    rw [hwrite]
    exact liftOpt_true rfl cex4_opClassBlock
  have h := getSummary_eq_stats "x" [cexReadWrite, cexReadWrite] []
    (some { avg_duration_ms := 1, min_duration_ms := 1, max_duration_ms := 1,
            median_duration_ms := 1, p50_duration_ms := 1,
            p95_duration_ms := 1, p99_duration_ms := 1 })
    none
    (some { operations := 2,
            data_mb := ([cexReadWrite, cexReadWrite].map (fun m => (m.data_size_bytes : ℚ))).sum / (1024 * 1024),
            avg_duration_ms := 1, min_duration_ms := 1, max_duration_ms := 1,
            p50_duration_ms := 1, p95_duration_ms := 1, p99_duration_ms := 1,
            avg_throughput_mbps := none })
    (some { operations := 2,
            data_mb := ([cexReadWrite, cexReadWrite].map (fun m => (m.data_size_bytes : ℚ))).sum / (1024 * 1024),
            avg_duration_ms := 1, min_duration_ms := 1, max_duration_ms := 1,
            p50_duration_ms := 1, p95_duration_ms := 1, p99_duration_ms := 1,
            avg_throughput_mbps := none })
    (by simp) (hsuc ▸ cex4_throughputs) hdur (liftOpt_false rfl) hrd hwr
  rw [h]
  rfl

/-- C3 counterexample: on the two successful records with durations 0 ms
and 100 ms, the code reports p95 = 185 and p99 = 197, both strictly above
the maximum successful duration 100 — the exclusive quantile method
extrapolates when its index clamp fires (fewer than 20 records for p95,
fewer than 100 for p99), so the claimed inclusion in [min, max] is false
at this input. -/
theorem c3_counterexample :
    2 ≤ (successfulOf [cexOpA, cexOpB]).length
    ∧ summaryDurP95P99 (getSummary "x" [cexOpA, cexOpB]) = some (185, 197)
    ∧ pyMax (durationsOf [cexOpA, cexOpB]) = .ok 100
    ∧ ¬((185 : ℚ) ≤ 100) ∧ ¬((197 : ℚ) ≤ 100) := by
  refine ⟨by norm_num [successfulOf, cexOpA, cexOpB], ?_, ?_, by norm_num, by norm_num⟩
  · rw [cex2_summary]
    rfl
  · rw [cex2_durations]
    norm_num [pyMax, List.max?, List.foldl, max_def]

/-- C4 counterexample: first, a single FAILED record whose operation_type
contains "read" yields a summary with no read sub-summary, refuting the
as-stated presence-iff over all records; second, two successful records of
operation_type "read_write" match both categories, so read_operations +
write_operations = 4 exceeds successful_operations = 2, refuting the
as-stated sum bound. -/
theorem c4_counterexample :
    (readStatsPresent (getSummary "x" [cexFailedRead]) = some false
      ∧ strContains (pyLower cexFailedRead.operation_type) "read" = true)
    ∧ (summaryCounts (getSummary "x" [cexReadWrite, cexReadWrite]) =
        some (2, some 2, some 2)
      ∧ ¬(2 + 2 ≤ 2)) := by
  refine ⟨⟨?_, rfl⟩, cex4_summary2, by omega⟩
  rw [cex4_summary1]
  rfl

theorem c2_percentile_method_witness :
    ∃ s d, getSummary "x" [cexOpA, cexOpB] = .ok (.stats s) ∧ s.durStats = some d ∧
      d.p95_duration_ms = quantileCutPoint (pySorted (durationsOf [cexOpA, cexOpB])) 20 19 ∧
      d.p99_duration_ms = quantileCutPoint (pySorted (durationsOf [cexOpA, cexOpB])) 100 99 :=
  (c2_percentile_method "x" [cexOpA, cexOpB]).1
    (by norm_num [successfulOf, cexOpA, cexOpB])

theorem c3_percentiles_between_min_max_witness :
    ∃ s d mn mx, getSummary "x" (List.replicate 100 cexOpB) = .ok (.stats s) ∧
      s.durStats = some d ∧
      pyMin (durationsOf (List.replicate 100 cexOpB)) = .ok mn ∧
      pyMax (durationsOf (List.replicate 100 cexOpB)) = .ok mx ∧
      mn ≤ d.p95_duration_ms ∧ mn ≤ d.p99_duration_ms ∧
      d.p95_duration_ms ≤ mx ∧ d.p99_duration_ms ≤ mx := by
  obtain ⟨s, d, mn, hsum, hds, hmn, h95, h99, h20, h100⟩ :=
    (c3_percentiles_between_min_max "x" (List.replicate 100 cexOpB)).1 (by decide)
  obtain ⟨mx, hmx, hle95⟩ := h20 (by decide)
  obtain ⟨mx2, hmx2, hle99⟩ := h100 (by decide)
  have hmxeq : mx2 = mx := by
    rw [hmx] at hmx2
    injection hmx2 with h3
    exact h3.symm
  exact ⟨s, d, mn, mx, hsum, hds, hmn, hmx, h95, h99, hle95, hmxeq ▸ hle99⟩

theorem c4_category_sub_summaries_witness :
    ∃ s, getSummary "x" [cexFailedRead] = .ok (.stats s) ∧
      (s.readStats.isSome ↔
        ∃ m ∈ successfulOf [cexFailedRead], strContains (pyLower m.operation_type) "read" = true) ∧
      (s.writeStats.isSome ↔
        ∃ m ∈ successfulOf [cexFailedRead], strContains (pyLower m.operation_type) "write" = true) ∧
      (∀ c, s.readStats = some c → c.operations ≤ s.successful_operations) ∧
      (∀ c, s.writeStats = some c → c.operations ≤ s.successful_operations) ∧
      ((∀ m ∈ successfulOf [cexFailedRead],
          ¬(strContains (pyLower m.operation_type) "read" = true ∧
            strContains (pyLower m.operation_type) "write" = true)) →
        ∀ cr cw, s.readStats = some cr → s.writeStats = some cw →
          cr.operations + cw.operations ≤ s.successful_operations) :=
  c4_category_sub_summaries "x" [cexFailedRead] (by simp)

/-- LoadProfile (src/oracle_test_lib.py lines 79-87): plain integer
configuration fields; the dataclass performs no validation. -/
structure LoadProfile where
  name : String
  concurrent_connections : ℤ
  operations_per_second : ℤ
  data_size_kb : ℤ
  think_time_ms : ℤ
  duration_seconds : ℤ

/-- What the database backend does during one write operation: the
execute/commit calls either succeed or raise with a message. -/
inductive BackendOutcome where
  | success
  | raises (msg : String)
  deriving DecidableEq, Repr

/-- Environment of one test_large_write / test_large_read invocation: the
backend outcome and the two wall-clock readings time.time() takes at entry
and in the finally block. -/
structure OpEnv where
  outcome : BackendOutcome
  startTime : ℚ
  endTime : ℚ

/-- What fetchone() returns during one test_large_read invocation. -/
inductive ReadOutcome where
  | row (numBytes : ℕ)
  | noRow
  | raises (msg : String)
  deriving DecidableEq, Repr

/-- OracleTestClient.test_large_write (lines 972-1025): builds the metric
with success=False, sets data_size_bytes to the generated payload length
(`_generate_test_data` at line 676 returns a string of size_kb*1024
characters; an empty one for a negative size), then catches any exception
of the execute/commit calls, recording its message instead of re-raising;
end_time is set in the finally block.  The use_prepared_statements flag
only selects which SQL text is executed and does not change the metric
shape, so it is not a parameter of the model. -/
def testLargeWrite (env : OpEnv) (dataSizeKb : ℤ) (connId : String) : TestMetrics :=
  let numBytes : ℤ := ((dataSizeKb * 1024).toNat : ℤ)
  match env.outcome with
  | .success =>
    { operation_type := "large_write", start_time := env.startTime,
      end_time := env.endTime, success := true, error_message := none,
      data_size_bytes := numBytes, connection_id := some connId }
  | .raises msg =>
    { operation_type := "large_write", start_time := env.startTime,
      end_time := env.endTime, success := false, error_message := some msg,
      data_size_bytes := numBytes, connection_id := some connId }

/-- OracleTestClient.test_large_read (lines 1027-1082): success only when a
row comes back, with data_size_bytes the payload length; a missing row or a
raised exception is recorded in the metric, never re-raised. -/
def testLargeRead (out : ReadOutcome) (startTime endTime : ℚ) (connId : String) :
    TestMetrics :=
  match out with
  | .row numBytes =>
    { operation_type := "large_read", start_time := startTime,
      end_time := endTime, success := true, error_message := none,
      data_size_bytes := (numBytes : ℤ), connection_id := some connId }
  | .noRow =>
    { operation_type := "large_read", start_time := startTime,
      end_time := endTime, success := false,
      error_message := some "No data found to read",
      data_size_bytes := 0, connection_id := some connId }
  | .raises msg =>
    { operation_type := "large_read", start_time := startTime,
      end_time := endTime, success := false, error_message := some msg,
      data_size_bytes := 0, connection_id := some connId }

/-- Environment of one worker of test_concurrent_operations: whether its
OracleTestConnection.connect() call returns True, and the MetricRecord that
operation_func returns on the i-th iteration (test_large_write and
test_large_read always return a metric, since they catch exceptions). -/
structure WorkerEnv where
  connectOk : Bool
  op : ℕ → TestMetrics

/-- Outcome of one worker: its local metric buffer, whether its connection
was established, and whether disconnect() ran (the finally block). -/
structure WorkerResult where
  metrics : List TestMetrics
  connEstablished : Bool
  connReleased : Bool
  deriving Repr

/-- The worker loop of lines 1232-1241: at each iteration boundary the stop
flag is read (`stop i` is the value the worker observes at the check before
iteration i); when set, the loop breaks before invoking the operation;
otherwise the operation runs and its metric is appended. -/
def workerIter (stop : ℕ → Bool) (op : ℕ → TestMetrics) : ℕ → ℕ → List TestMetrics
  | _, 0 => []
  | i, k + 1 => if stop i then [] else op i :: workerIter stop op (i + 1) k

/-- The worker closure of lines 1219-1246: a failed connect returns an
empty buffer without raising (lines 1228-1229); otherwise the loop runs and
the finally block of line 1243 releases the connection on every exit path,
including the stop-flag break. -/
def runWorker (env : WorkerEnv) (stop : ℕ → Bool) (opsPerConn : ℕ) : WorkerResult :=
  if env.connectOk then
    { metrics := workerIter stop env.op 0 opsPerConn,
      connEstablished := true, connReleased := true }
  else
    { metrics := [], connEstablished := false, connReleased := false }

/-- OracleTestClient.test_concurrent_operations (lines 1200-1262):
ThreadPoolExecutor raises ValueError for max_workers <= 0 before any worker
is submitted (CPython concurrent.futures.thread); otherwise one worker per
connection id runs (Python `range` of a negative per-connection count is
empty, hence `.toNat`).  The merge order of as_completed is
implementation-defined; the model merges in worker-index order, which fixes
one admissible interleaving and is faithful for the per-worker and counting
properties proved here. -/
def testConcurrentOperations (envs : ℕ → WorkerEnv) (stop : ℕ → ℕ → Bool)
    (numConnections opsPerConnection : ℤ) : Except PyErr (List WorkerResult) :=
  if numConnections ≤ 0 then
    .error (.valueError "max_workers must be greater than 0")
  else
    .ok ((List.range numConnections.toNat).map
      (fun i => runWorker (envs i) (stop i) opsPerConnection.toNat))

/-- The merged metric list returned to the caller (lines 1255-1262). -/
def mergedMetrics (ws : List WorkerResult) : List TestMetrics :=
  ws.flatMap (fun w => w.metrics)

/-- Number of workers that attempted a connection under a run outcome: the
error constructor is produced before any worker is submitted. -/
def connectionsAttempted (r : Except PyErr (List WorkerResult)) : ℕ :=
  match r with
  | .error _ => 0
  | .ok ws => ws.length

/-- OracleTestClient.run_write_test (lines 1264-1296): total operations =
operations_per_second * duration_seconds, per-connection count by Python
floor division (ZeroDivisionError surfaces synchronously when
concurrent_connections = 0), then test_concurrent_operations with the write
executor, whose behaviour is carried by the worker environments; the
returned TestResults holds the metrics the client already stored plus the
merged new ones. -/
def runWriteTest (profile : LoadProfile) (priorMetrics : List TestMetrics)
    (envs : ℕ → WorkerEnv) (stop : ℕ → ℕ → Bool) :
    Except PyErr (List TestMetrics) := do
  let total := profile.operations_per_second * profile.duration_seconds
  let opsPerConnection ← pyFloorDiv total profile.concurrent_connections
  let ws ← testConcurrentOperations envs stop profile.concurrent_connections opsPerConnection
  .ok (priorMetrics ++ mergedMetrics ws)

/-- OracleTestClient.run_read_test (lines 1298-1330): same skeleton with
the read executor. -/
def runReadTest (profile : LoadProfile) (priorMetrics : List TestMetrics)
    (envs : ℕ → WorkerEnv) (stop : ℕ → ℕ → Bool) :
    Except PyErr (List TestMetrics) := do
  let total := profile.operations_per_second * profile.duration_seconds
  let opsPerConnection ← pyFloorDiv total profile.concurrent_connections
  let ws ← testConcurrentOperations envs stop profile.concurrent_connections opsPerConnection
  .ok (priorMetrics ++ mergedMetrics ws)

/-- OracleTestClient.run_mixed_test (lines 1332-1367): same skeleton; the
per-invocation random read/write choice of mixed_op is part of each worker
environment's op function. -/
def runMixedTest (profile : LoadProfile) (priorMetrics : List TestMetrics)
    (envs : ℕ → WorkerEnv) (stop : ℕ → ℕ → Bool) :
    Except PyErr (List TestMetrics) := do
  let total := profile.operations_per_second * profile.duration_seconds
  let opsPerConnection ← pyFloorDiv total profile.concurrent_connections
  let ws ← testConcurrentOperations envs stop profile.concurrent_connections opsPerConnection
  .ok (priorMetrics ++ mergedMetrics ws)

lemma error_bind {α β : Type} (e : PyErr) (f : α → Except PyErr β) :
    (Except.error e >>= f) = Except.error e := rfl

/-- If the stop flag is never observed set, the worker performs its full
quota in order. -/
lemma workerIter_no_stop (stop : ℕ → Bool) (op : ℕ → TestMetrics)
    (hs : ∀ j, stop j = false) :
    ∀ (k start : ℕ), workerIter stop op start k = (List.range' start k).map op := by
  intro k
  induction k with
  | zero => intro start; rfl
  | succ n ih =>
    intro start
    simp [workerIter, hs start, List.range'_succ, ih (start + 1)]

/-- The worker loop runs an initial segment of its quota: it performs
exactly the iterations at which the stop flag was observed unset, and stops
either because the quota is exhausted or at the first check that sees the
flag set. -/
lemma workerIter_spec (stop : ℕ → Bool) (op : ℕ → TestMetrics) :
    ∀ (k start : ℕ), ∃ m, m ≤ k ∧
      workerIter stop op start k = (List.range' start m).map op ∧
      (∀ j, start ≤ j → j < start + m → stop j = false) ∧
      (m = k ∨ stop (start + m) = true) := by
  intro k
  induction k with
  | zero =>
    intro start
    exact ⟨0, le_refl 0, rfl, by omega, .inl rfl⟩
  | succ n ih =>
    intro start
    cases hstop : stop start with
    | true =>
      refine ⟨0, by omega, ?_, by omega, .inr (by simpa using hstop)⟩
      simp [workerIter, hstop]
    | false =>
      obtain ⟨m, hm, heq, hnostop, hend⟩ := ih (start + 1)
      refine ⟨m + 1, by omega, ?_, ?_, ?_⟩
      · simp [workerIter, hstop, List.range'_succ, heq]
      · intro j hj1 hj2
        by_cases hj : j = start
        · rw [hj]
          exact hstop
        · exact hnostop j (by omega) (by omega)
      · rcases hend with h | h
        · exact .inl (by omega)
        · refine .inr ?_
          rw [show start + (m + 1) = start + 1 + m by omega]
          exact h

lemma flatMap_length_const {α β : Type} (f : β → List α) (L : List β) (k : ℕ)
    (h : ∀ b ∈ L, (f b).length = k) : (L.flatMap f).length = L.length * k := by
  induction L with
  | nil => simp
  | cons x xs ih =>
    have hx := h x (by simp)
    have ihx := ih (fun b hb => h b (by simp [hb]))
    simp only [List.flatMap_cons, List.length_append, List.length_cons, hx, ihx]
    ring

lemma flatMap_sublist {α β : Type} (f : β → List α) (L : List β) (b : β)
    (hb : b ∈ L) : (f b).Sublist (L.flatMap f) := by
  induction L with
  | nil => simp at hb
  | cons x xs ih =>
    rcases List.mem_cons.mp hb with h | h
    · rw [h, List.flatMap_cons]
      exact List.sublist_append_left _ _
    · exact (ih h).trans (by rw [List.flatMap_cons]; exact List.sublist_append_right _ _)

/-- C1: with concurrent_connections = C at least 1 and T =
operations_per_second * duration_seconds, if every worker connects, the
stop flag is never set and every operation returns a metric (which
test_large_write and test_large_read always do), then run_write_test,
run_read_test and run_mixed_test all return exactly C * (T fdiv C) metrics,
floor division dropping the remainder T mod C. -/
theorem c1_operation_count (profile : LoadProfile) (envs : ℕ → WorkerEnv)
    (stop : ℕ → ℕ → Bool)
    (hC : 1 ≤ profile.concurrent_connections)
    (hT : 0 ≤ profile.operations_per_second * profile.duration_seconds)
    (hconn : ∀ i, (envs i).connectOk = true)
    (hstop : ∀ i j, stop i j = false) :
    ∃ l, runWriteTest profile [] envs stop = .ok l ∧
      runReadTest profile [] envs stop = .ok l ∧
      runMixedTest profile [] envs stop = .ok l ∧
      (l.length : ℤ) = profile.concurrent_connections *
        ((profile.operations_per_second * profile.duration_seconds).fdiv
          profile.concurrent_connections) := by
  set C := profile.concurrent_connections with hCdef
  set T := profile.operations_per_second * profile.duration_seconds with hTdef
  have hC0 : C ≠ 0 := by omega
  have hdiv : pyFloorDiv T C = .ok (T.fdiv C) := by simp [pyFloorDiv, hC0]
  have hper : 0 ≤ T.fdiv C := Int.fdiv_nonneg hT (by omega)
  set k := (T.fdiv C).toNat with hkdef
  set ws := (List.range C.toNat).map (fun i => runWorker (envs i) (stop i) k) with hwsdef
  have htco : testConcurrentOperations envs stop C (T.fdiv C) = .ok ws := by
    rw [testConcurrentOperations, if_neg (by omega)]
  have hwlen : ∀ w ∈ ws, w.metrics.length = k := by
    intro w hw
    rw [hwsdef] at hw
    obtain ⟨i, _, rfl⟩ := List.mem_map.mp hw
    rw [runWorker, if_pos (hconn i),
      workerIter_no_stop (stop i) (envs i).op (hstop i) k 0]
    simp
  have hmlen : (mergedMetrics ws).length = C.toNat * k := by
    rw [mergedMetrics, flatMap_length_const (fun w => w.metrics) ws k hwlen, hwsdef]
    simp
  refine ⟨mergedMetrics ws, ?_, ?_, ?_, ?_⟩
  · rw [runWriteTest]
    simp only [← hTdef, ← hCdef, hdiv, ok_bind, htco, List.nil_append]
  · rw [runReadTest]
    simp only [← hTdef, ← hCdef, hdiv, ok_bind, htco, List.nil_append]
  · rw [runMixedTest]
    simp only [← hTdef, ← hCdef, hdiv, ok_bind, htco, List.nil_append]
  · rw [hmlen]
    push_cast
    rw [Int.toNat_of_nonneg (by omega), Int.toNat_of_nonneg hper]

theorem c1_operation_count_witness :
    ∃ l, runWriteTest
        { name := "w", concurrent_connections := 2, operations_per_second := 3,
          data_size_kb := 10, think_time_ms := 0, duration_seconds := 2 }
        [] (fun _ => { connectOk := true, op := fun _ => zeroDurationMetric })
        (fun _ _ => false) = .ok l ∧
      runReadTest
        { name := "w", concurrent_connections := 2, operations_per_second := 3,
          data_size_kb := 10, think_time_ms := 0, duration_seconds := 2 }
        [] (fun _ => { connectOk := true, op := fun _ => zeroDurationMetric })
        (fun _ _ => false) = .ok l ∧
      runMixedTest
        { name := "w", concurrent_connections := 2, operations_per_second := 3,
          data_size_kb := 10, think_time_ms := 0, duration_seconds := 2 }
        [] (fun _ => { connectOk := true, op := fun _ => zeroDurationMetric })
        (fun _ _ => false) = .ok l ∧
      (l.length : ℤ) = 2 * ((3 * 2 : ℤ).fdiv 2) :=
  c1_operation_count
    { name := "w", concurrent_connections := 2, operations_per_second := 3,
      data_size_kb := 10, think_time_ms := 0, duration_seconds := 2 }
    (fun _ => { connectOk := true, op := fun _ => zeroDurationMetric })
    (fun _ _ => false) (by norm_num) (by norm_num)
    (fun _ => rfl) (fun _ _ => rfl)

/-- C5: a LoadProfile violating concurrent_connections >= 1 makes every run
entry point fail synchronously before any worker exists: with zero
connections the per-connection floor division raises ZeroDivisionError (at
line 1278, before test_concurrent_operations is called); with a negative
count ThreadPoolExecutor rejects max_workers before submitting any worker;
in both cases no worker is spawned and no connection is attempted
(connectionsAttempted = 0 for every per-connection count). -/
theorem c5_invalid_profile_fails_fast (profile : LoadProfile)
    (priorMetrics : List TestMetrics) (envs : ℕ → WorkerEnv) (stop : ℕ → ℕ → Bool)
    (hC : profile.concurrent_connections ≤ 0) :
    ∃ e, runWriteTest profile priorMetrics envs stop = .error e ∧
      runReadTest profile priorMetrics envs stop = .error e ∧
      runMixedTest profile priorMetrics envs stop = .error e ∧
      (∀ per, connectionsAttempted
        (testConcurrentOperations envs stop profile.concurrent_connections per) = 0) ∧
      e = (if profile.concurrent_connections = 0 then PyErr.zeroDivision
           else PyErr.valueError "max_workers must be greater than 0") := by
  have hatt : ∀ per, connectionsAttempted
      (testConcurrentOperations envs stop profile.concurrent_connections per) = 0 := by
    intro per
    rw [testConcurrentOperations, if_pos hC]
    rfl
  by_cases hz : profile.concurrent_connections = 0
  · refine ⟨PyErr.zeroDivision, ?_, ?_, ?_, hatt, by rw [if_pos hz]⟩
    all_goals
      simp only [runWriteTest, runReadTest, runMixedTest, pyFloorDiv, hz,
        if_pos, if_true, error_bind]
  · have htc : testConcurrentOperations envs stop profile.concurrent_connections
        ((profile.operations_per_second * profile.duration_seconds).fdiv
          profile.concurrent_connections) =
        .error (.valueError "max_workers must be greater than 0") := by
      rw [testConcurrentOperations, if_pos hC]
    have hdiv : pyFloorDiv
        (profile.operations_per_second * profile.duration_seconds)
        profile.concurrent_connections = .ok
        ((profile.operations_per_second * profile.duration_seconds).fdiv
          profile.concurrent_connections) := by
      simp [pyFloorDiv, hz]
    refine ⟨PyErr.valueError "max_workers must be greater than 0",
      ?_, ?_, ?_, hatt, by rw [if_neg hz]⟩
    all_goals
      simp only [runWriteTest, runReadTest, runMixedTest, hdiv, ok_bind, htc, error_bind]

theorem c5_invalid_profile_fails_fast_witness :
    ∃ e, runWriteTest
        { name := "z", concurrent_connections := 0, operations_per_second := 3,
          data_size_kb := 10, think_time_ms := 0, duration_seconds := 2 }
        [] (fun _ => { connectOk := true, op := fun _ => zeroDurationMetric })
        (fun _ _ => false) = .error e ∧
      runReadTest
        { name := "z", concurrent_connections := 0, operations_per_second := 3,
          data_size_kb := 10, think_time_ms := 0, duration_seconds := 2 }
        [] (fun _ => { connectOk := true, op := fun _ => zeroDurationMetric })
        (fun _ _ => false) = .error e ∧
      runMixedTest
        { name := "z", concurrent_connections := 0, operations_per_second := 3,
          data_size_kb := 10, think_time_ms := 0, duration_seconds := 2 }
        [] (fun _ => { connectOk := true, op := fun _ => zeroDurationMetric })
        (fun _ _ => false) = .error e ∧
      (∀ per, connectionsAttempted
        (testConcurrentOperations
          (fun _ => { connectOk := true, op := fun _ => zeroDurationMetric })
          (fun _ _ => false) 0 per) = 0) ∧
      e = (if (0 : ℤ) = 0 then PyErr.zeroDivision
           else PyErr.valueError "max_workers must be greater than 0") :=
  c5_invalid_profile_fails_fast
    { name := "z", concurrent_connections := 0, operations_per_second := 3,
      data_size_kb := 10, think_time_ms := 0, duration_seconds := 2 }
    [] (fun _ => { connectOk := true, op := fun _ => zeroDurationMetric })
    (fun _ _ => false) (by norm_num)

/-- C6: a backend exception inside test_large_write or test_large_read is
captured as a returned metric with success = false and the exception text
as error_message (the functions are total in the model because the source
catches every exception, so nothing is re-raised); a worker whose
operations fail still runs its full quota (the loop body never aborts);
and a worker whose connect() fails contributes an empty buffer while
test_concurrent_operations still returns normally with every sibling
worker's result untouched. -/
theorem c6_failure_isolation (env : OpEnv) (kb : ℤ) (cid msg : String)
    (hmsg : env.outcome = .raises msg) (rdStart rdEnd : ℚ)
    (envs : ℕ → WorkerEnv) (stopF : ℕ → ℕ → Bool) (C k : ℤ) (i : ℕ)
    (hC : 1 ≤ C) (hi : i < C.toNat) (hconn : (envs i).connectOk = false) :
    ((testLargeWrite env kb cid).success = false ∧
      (testLargeWrite env kb cid).error_message = some msg)
    ∧ ((testLargeRead (.raises msg) rdStart rdEnd cid).success = false ∧
      (testLargeRead (.raises msg) rdStart rdEnd cid).error_message = some msg)
    ∧ (∀ op n, workerIter (fun _ => false) op 0 n = (List.range n).map op)
    ∧ (∃ ws, testConcurrentOperations envs stopF C k = .ok ws
        ∧ ws[i]? = some (runWorker (envs i) (stopF i) k.toNat)
        ∧ (runWorker (envs i) (stopF i) k.toNat).metrics = []
        ∧ ∀ j, j < C.toNat → ws[j]? = some (runWorker (envs j) (stopF j) k.toNat)) := by
  refine ⟨?_, ⟨rfl, rfl⟩, ?_, ?_⟩
  · rw [testLargeWrite, hmsg]
    exact ⟨rfl, rfl⟩
  · intro op n
    rw [workerIter_no_stop (fun _ => false) op (fun _ => rfl) n 0,
      List.range_eq_range']
  · refine ⟨(List.range C.toNat).map (fun j => runWorker (envs j) (stopF j) k.toNat),
      ?_, ?_, ?_, ?_⟩
    · rw [testConcurrentOperations, if_neg (by omega)]
    · rw [List.getElem?_map, List.getElem?_range hi]
      rfl
    · rw [runWorker, if_neg (by rw [hconn]; exact Bool.false_ne_true)]
    · intro j hj
      rw [List.getElem?_map, List.getElem?_range hj]
      rfl

theorem c6_failure_isolation_witness :
    ((testLargeWrite { outcome := .raises "ORA-00942", startTime := 0, endTime := 1 }
        10 "conn_0").success = false ∧
      (testLargeWrite { outcome := .raises "ORA-00942", startTime := 0, endTime := 1 }
        10 "conn_0").error_message = some "ORA-00942")
    ∧ ((testLargeRead (.raises "ORA-00942") 0 1 "conn_0").success = false ∧
      (testLargeRead (.raises "ORA-00942") 0 1 "conn_0").error_message = some "ORA-00942")
    ∧ (∀ op n, workerIter (fun _ => false) op 0 n = (List.range n).map op)
    ∧ (∃ ws, testConcurrentOperations
          (fun j => if j = 0 then { connectOk := false, op := fun _ => zeroDurationMetric }
                    else { connectOk := true, op := fun _ => zeroDurationMetric })
          (fun _ _ => false) 2 3 = .ok ws
        ∧ ws[0]? = some (runWorker
            ((fun j => if j = 0 then
                { connectOk := false, op := fun _ => zeroDurationMetric }
              else { connectOk := true, op := fun _ => zeroDurationMetric }) 0)
            ((fun _ _ => false) 0) (3 : ℤ).toNat)
        ∧ (runWorker
            ((fun j => if j = 0 then
                { connectOk := false, op := fun _ => zeroDurationMetric }
              else { connectOk := true, op := fun _ => zeroDurationMetric }) 0)
            ((fun _ _ => false) 0) (3 : ℤ).toNat).metrics = []
        ∧ ∀ j, j < (2 : ℤ).toNat → ws[j]? = some (runWorker
            ((fun j2 => if j2 = 0 then
                { connectOk := false, op := fun _ => zeroDurationMetric }
              else { connectOk := true, op := fun _ => zeroDurationMetric }) j)
            ((fun _ _ => false) j) (3 : ℤ).toNat)) :=
  c6_failure_isolation
    { outcome := .raises "ORA-00942", startTime := 0, endTime := 1 } 10 "conn_0"
    "ORA-00942" rfl 0 1
    (fun j => if j = 0 then { connectOk := false, op := fun _ => zeroDurationMetric }
              else { connectOk := true, op := fun _ => zeroDurationMetric })
    (fun _ _ => false) 2 3 0 (by norm_num) (by norm_num) (by norm_num)

/-- C9: under any stop-flag behaviour, a connected worker performs exactly
an initial segment of its quota: every operation it ran started at an
iteration-boundary check where the flag was observed unset, and the loop
ended either with the quota exhausted or at the first check observing the
flag set (so once stop() is called no further operation starts); the
finally block still releases the connection on that exit path, and the
whole buffer the worker collected before stopping appears inside the merged
list returned to the caller. -/
theorem c9_cooperative_stop (envs : ℕ → WorkerEnv) (stopF : ℕ → ℕ → Bool)
    (C k : ℤ) (i : ℕ) (ws : List WorkerResult)
    (hok : testConcurrentOperations envs stopF C k = .ok ws)
    (hi : i < C.toNat)
    (hconn : (envs i).connectOk = true) :
    ∃ m, m ≤ k.toNat ∧
      (runWorker (envs i) (stopF i) k.toNat).metrics = (List.range m).map (envs i).op ∧
      (∀ j, j < m → stopF i j = false) ∧
      (m = k.toNat ∨ stopF i m = true) ∧
      (runWorker (envs i) (stopF i) k.toNat).connReleased = true ∧
      (runWorker (envs i) (stopF i) k.toNat).metrics.Sublist (mergedMetrics ws) := by
  have hws : ws = (List.range C.toNat).map
      (fun j => runWorker (envs j) (stopF j) k.toNat) := by
    by_cases hC : C ≤ 0
    · rw [testConcurrentOperations, if_pos hC] at hok
      exact absurd hok (by simp)
    · rw [testConcurrentOperations, if_neg hC] at hok
      injection hok with h
      exact h.symm
  obtain ⟨m, hm, heq, hns, hend⟩ := workerIter_spec (stopF i) (envs i).op k.toNat 0
  have hrw : (runWorker (envs i) (stopF i) k.toNat).metrics =
      workerIter (stopF i) (envs i).op 0 k.toNat := by
    rw [runWorker, if_pos hconn]
  refine ⟨m, hm, ?_, ?_, ?_, ?_, ?_⟩
  · rw [hrw, heq, List.range_eq_range']
  · intro j hj
    exact hns j (by omega) (by omega)
  · simpa using hend
  · rw [runWorker, if_pos hconn]
  · have hmem : runWorker (envs i) (stopF i) k.toNat ∈ ws := by
      rw [hws]
      exact List.mem_map.mpr ⟨i, List.mem_range.mpr hi, rfl⟩
    exact flatMap_sublist (fun w => w.metrics) ws _ hmem

theorem c9_cooperative_stop_witness :
    ∃ m, m ≤ (5 : ℤ).toNat ∧
      (runWorker ((fun _ => { connectOk := true, op := fun _ => zeroDurationMetric }) 0)
        ((fun _ j => decide (2 ≤ j)) 0) (5 : ℤ).toNat).metrics =
        (List.range m).map ((fun _ =>
          ({ connectOk := true, op := fun _ => zeroDurationMetric } : WorkerEnv)) 0).op ∧
      (∀ j, j < m → (fun _ j => decide (2 ≤ j)) 0 j = false) ∧
      (m = (5 : ℤ).toNat ∨ (fun _ j => decide (2 ≤ j)) 0 m = true) ∧
      (runWorker ((fun _ => { connectOk := true, op := fun _ => zeroDurationMetric }) 0)
        ((fun _ j => decide (2 ≤ j)) 0) (5 : ℤ).toNat).connReleased = true ∧
      (runWorker ((fun _ => { connectOk := true, op := fun _ => zeroDurationMetric }) 0)
        ((fun _ j => decide (2 ≤ j)) 0) (5 : ℤ).toNat).metrics.Sublist
        (mergedMetrics ((List.range (1 : ℤ).toNat).map
          (fun j => runWorker
            ((fun _ => ({ connectOk := true, op := fun _ => zeroDurationMetric } : WorkerEnv)) j)
            ((fun _ j2 => decide (2 ≤ j2)) j) (5 : ℤ).toNat))) :=
  c9_cooperative_stop
    (fun _ => { connectOk := true, op := fun _ => zeroDurationMetric })
    (fun _ j => decide (2 ≤ j)) 1 5 0
    ((List.range (1 : ℤ).toNat).map
      (fun j => runWorker
        ((fun _ => ({ connectOk := true, op := fun _ => zeroDurationMetric } : WorkerEnv)) j)
        ((fun _ j2 => decide (2 ≤ j2)) j) (5 : ℤ).toNat))
    (by rw [testConcurrentOperations, if_neg (by norm_num)])
    (by norm_num) rfl

/-- Environment of one phase of compare_prepared_vs_direct: whether the
phase connection connects, and the backend outcome with timestamps of each
of its operations. -/
structure PhaseEnv where
  connectOk : Bool
  ops : ℕ → OpEnv

/-- One phase loop of compare_prepared_vs_direct (lines 1168-1175 and
1184-1191): when the connection succeeds, num_operations test_large_write
calls append their metric into the TestResults object the phase allocated;
a failed connect leaves that object empty (the loop is skipped and nothing
is raised). -/
def runPhase (env : PhaseEnv) (numOperations dataSizeKb : ℤ) (connId : String) :
    List TestMetrics :=
  if env.connectOk then
    (List.range numOperations.toNat).map
      (fun i => testLargeWrite (env.ops i) dataSizeKb connId)
  else []

/-- Result of compare_prepared_vs_direct: the returned dictionary holds two
references (indices) into the heap of TestResults objects allocated so far,
plus the final value of self.use_prepared_statements.  Heap indices model
Python object identity: `self.results = TestResults(...)` allocates a new
object, and the dictionary entries keep referring to the objects assigned
at lines 1177 and 1193 even after self.results is rebound. -/
structure CompareOutcome where
  preparedRef : ℕ
  directRef : ℕ
  heap : List (List TestMetrics)
  use_prepared_statements : Bool

/-- OracleTestClient.compare_prepared_vs_direct (lines 1146-1198).  The
entry value of self.use_prepared_statements is overwritten with True at
line 1165 before anything else, so it is an ignored argument; phase one
fills a freshly allocated TestResults (reference A), phase two sets the
flag to False and fills a second fresh object (reference B), and line 1196
resets the flag to True on every path, including when either phase's
connect() fails. -/
def comparePreparedVsDirect (_entryUsePrepared : Bool)
    (heap0 : List (List TestMetrics)) (envPrepared envDirect : PhaseEnv)
    (numOperations dataSizeKb : ℤ) : CompareOutcome :=
  let phase1 := runPhase envPrepared numOperations dataSizeKb "prepared_test"
  let refA := heap0.length
  let heap1 := heap0 ++ [phase1]
  let phase2 := runPhase envDirect numOperations dataSizeKb "direct_test"
  let refB := heap1.length
  let heap2 := heap1 ++ [phase2]
  { preparedRef := refA, directRef := refB, heap := heap2,
    use_prepared_statements := true }

/-- C10: whatever the entry value of use_prepared_statements and whatever
each phase's connection outcome, compare_prepared_vs_direct returns with
use_prepared_statements = True; the prepared and direct entries are two
distinct TestResults objects (distinct heap references), the prepared one
holding exactly the phase-one metrics and the direct one exactly the
phase-two metrics, so the two phases' record lists are never merged. -/
theorem c10_compare_resets_and_separates (entryUsePrepared : Bool)
    (heap0 : List (List TestMetrics)) (envPrepared envDirect : PhaseEnv)
    (numOperations dataSizeKb : ℤ) :
    (comparePreparedVsDirect entryUsePrepared heap0 envPrepared envDirect
      numOperations dataSizeKb).use_prepared_statements = true
    ∧ (comparePreparedVsDirect entryUsePrepared heap0 envPrepared envDirect
        numOperations dataSizeKb).preparedRef ≠
      (comparePreparedVsDirect entryUsePrepared heap0 envPrepared envDirect
        numOperations dataSizeKb).directRef
    ∧ (comparePreparedVsDirect entryUsePrepared heap0 envPrepared envDirect
        numOperations dataSizeKb).heap[(comparePreparedVsDirect entryUsePrepared
          heap0 envPrepared envDirect numOperations dataSizeKb).preparedRef]? =
      some (runPhase envPrepared numOperations dataSizeKb "prepared_test")
    ∧ (comparePreparedVsDirect entryUsePrepared heap0 envPrepared envDirect
        numOperations dataSizeKb).heap[(comparePreparedVsDirect entryUsePrepared
          heap0 envPrepared envDirect numOperations dataSizeKb).directRef]? =
      some (runPhase envDirect numOperations dataSizeKb "direct_test") := by
  simp only [comparePreparedVsDirect]
  refine ⟨trivial, by simp, ?_, ?_⟩
  · simp only [List.getElem?_append]
    rw [if_pos (by simp), if_neg (by omega)]
    simp
  · simp only [List.getElem?_append]
    rw [if_neg (by omega)]
    simp

end OracleLib
